import Mathlib

/-!
Verification of the graph core of `egui_node_graph` (file
`src/egui_node_graph/src/graph_impls.rs`).

The Rust code stores nodes and ports in generational slot maps (`SlotMap`)
and connections in a `SecondaryMap` keyed by input id.  We model a slot map
as an association list together with a fresh-key counter: keys are handed
out from the counter and never reused, so a removed key never resolves
again — observationally equivalent to generational keys for every
operation the code performs (insert, remove, get, in-place update,
iteration).

Rust panics (out-of-bounds arena indexing such as `self.nodes[node_id]`)
are modelled as an error value; mutating operations return the graph state
reached at the moment of the panic together with the error, which is the
state an unwinding caller can observe.
-/

/-- Modelled from the spec (§2, §4.1, §9) and the `slotmap` crate contract:
a generational slot-based store.  Keys come from a monotone counter and are
never reused, which matches the generational guarantee that a stale key
never resolves to a later value.  `entries` holds the live `(key, value)`
pairs in insertion order. -/
structure SlotMap (α : Type) where
  next : Nat
  entries : List (Nat × α)
deriving DecidableEq

/-- The empty slot map (`SlotMap::default()`). -/
def SlotMap.empty {α : Type} : SlotMap α := ⟨0, []⟩

/-- `SlotMap::insert_with_key`: the constructor receives the fresh key. -/
def SlotMap.insert_with_key {α : Type} (m : SlotMap α) (f : Nat → α) :
    SlotMap α × Nat :=
  (⟨m.next + 1, m.entries ++ [(m.next, f m.next)]⟩, m.next)

/-- `SlotMap::get`. -/
def SlotMap.get {α : Type} (m : SlotMap α) (k : Nat) : Option α :=
  (m.entries.find? (fun p => p.1 == k)).map (fun p => p.2)

/-- `SlotMap::remove`: returns the removed value, if any. -/
def SlotMap.remove {α : Type} (m : SlotMap α) (k : Nat) :
    SlotMap α × Option α :=
  (⟨m.next, m.entries.filter (fun p => p.1 != k)⟩,
   (m.entries.find? (fun p => p.1 == k)).map (fun p => p.2))

/-- In-place update through a live key (Rust's `map[k] = v` /
`get_mut` write): replaces the value stored at `k`, keeping its slot. -/
def SlotMap.set {α : Type} (m : SlotMap α) (k : Nat) (v : α) : SlotMap α :=
  ⟨m.next, m.entries.map (fun p => if p.1 == k then (k, v) else p)⟩

/-- Modelled from the spec (§3): the closed enumeration of input kinds. -/
inductive InputParamKind where
  | ConnectionOnly
  | ConstantOnly
  | ConnectionOrConstant
deriving DecidableEq

/-- Modelled from the spec (§3): an input port record.  Ids are the Nat
keys of our slot-map model. -/
structure InputParam (DataType ValueType : Type) where
  id : Nat
  typ : DataType
  value : ValueType
  kind : InputParamKind
  node : Nat
  shown_inline : Bool
deriving DecidableEq

/-- Modelled from the spec (§3): an output port record. -/
structure OutputParam (DataType : Type) where
  id : Nat
  node : Nat
  typ : DataType
deriving DecidableEq

/-- Modelled from the spec (§3): a node record with ordered
`(name, port id)` lists. -/
structure Node (NodeData : Type) where
  id : Nat
  label : String
  inputs : List (String × Nat)
  outputs : List (String × Nat)
  user_data : NodeData
deriving DecidableEq

/-- Modelled from the spec (§2, §3): the graph owns the three arenas and
the connection table.  The table (`SecondaryMap<InputId, OutputId>`) is
an association list `input ↦ output`; insertion overwrites the entry of
an existing key. -/
structure Graph (NodeData DataType ValueType : Type) where
  nodes : SlotMap (Node NodeData)
  inputs : SlotMap (InputParam DataType ValueType)
  outputs : SlotMap (OutputParam DataType)
  connections : List (Nat × Nat)
deriving DecidableEq

/-- Modelled from the spec (§7): tagged parameter id. -/
inductive AnyParameterId where
  | input (i : Nat)
  | output (o : Nat)
deriving DecidableEq

/-- Modelled from the spec (§7): the error taxonomy of the core. -/
inductive EguiGraphError where
  | InvalidParameterId (p : AnyParameterId)
  | UnknownNode (n : Nat)
  | NoParameterNamed (n : Nat) (name : String)
deriving DecidableEq

/-- Marker for a Rust panic raised by indexing an arena with a dead key. -/
inductive Panic where
  | panic
deriving DecidableEq

instance {ε α : Type} [DecidableEq ε] [DecidableEq α] :
    DecidableEq (Except ε α) := fun a b =>
  match a, b with
  | .error e, .error e' =>
    match decEq e e' with
    | isTrue h => isTrue (by rw [h])
    | isFalse h => isFalse (fun hc => h (by cases hc; rfl))
  | .error _, .ok _ => isFalse (fun hc => by cases hc)
  | .ok _, .error _ => isFalse (fun hc => by cases hc)
  | .ok a, .ok a' =>
    match decEq a a' with
    | isTrue h => isTrue (by rw [h])
    | isFalse h => isFalse (fun hc => h (by cases hc; rfl))

/-- `SecondaryMap::insert`: overwrite the entry of an existing key,
otherwise add a new entry. -/
def connInsert (l : List (Nat × Nat)) (i o : Nat) : List (Nat × Nat) :=
  if l.any (fun c => c.1 == i) then
    l.map (fun c => if c.1 == i then (i, o) else c)
  else l ++ [(i, o)]

/-- The `connections.retain` pass of `Graph::remove_node`
(graph_impls.rs:67-68).  The Rust closure is
`!(self.outputs[*o].node == node_id || self.inputs[i].node == node_id)`;
indexing a dead key panics, and `||` short-circuits, so the input is only
looked up when the output's owner is not the removed node.  Returns
`(panicked, resulting list)`; on a panic the entry being tested and the
untested tail are left in place, as unwinding `retain` leaves them. -/
def connRetain {D V : Type} (ins : SlotMap (InputParam D V))
    (outs : SlotMap (OutputParam D)) (node_id : Nat) :
    List (Nat × Nat) → Bool × List (Nat × Nat)
  | [] => (false, [])
  | c :: rest =>
    match outs.get c.2 with
    | none => (true, c :: rest)
    | some op =>
      if op.node == node_id then connRetain ins outs node_id rest
      else
        match ins.get c.1 with
        | none => (true, c :: rest)
        | some ip =>
          if ip.node == node_id then connRetain ins outs node_id rest
          else
            let r := connRetain ins outs node_id rest
            (r.1, c :: r.2)

/-- `Graph::new`. -/
def Graph.new {N D V : Type} : Graph N D V :=
  ⟨SlotMap.empty, SlotMap.empty, SlotMap.empty, []⟩

/-- `Graph::add_node` (graph_impls.rs:13-33): insert a node with empty
port lists, then run the caller's initialization closure with the fresh
id; returns the final graph and the new id. -/
def Graph.add_node {N D V : Type} (g : Graph N D V) (label : String)
    (user_data : N) (f : Graph N D V → Nat → Graph N D V) :
    Graph N D V × Nat :=
  let r := g.nodes.insert_with_key (fun node_id =>
    { id := node_id, label := label, inputs := [], outputs := [],
      user_data := user_data })
  (f { g with nodes := r.1 } r.2, r.2)

/-- `Graph::add_input_param` (graph_impls.rs:35-54): insert the port into
the input arena first, then `self.nodes[node_id].inputs.push(..)` — the
indexing panics when `node_id` is dead, after the arena insert. -/
def Graph.add_input_param {N D V : Type} (g : Graph N D V) (node_id : Nat)
    (name : String) (typ : D) (value : V) (kind : InputParamKind)
    (shown_inline : Bool) : Graph N D V × Except Panic Nat :=
  let r := g.inputs.insert_with_key (fun input_id =>
    { id := input_id, typ := typ, value := value, kind := kind,
      node := node_id, shown_inline := shown_inline })
  let g1 : Graph N D V := { g with inputs := r.1 }
  match g1.nodes.get node_id with
  | none => (g1, .error Panic.panic)
  | some node =>
    let node1 : Node N := { node with inputs := node.inputs ++ [(name, r.2)] }
    ({ g1 with nodes := g1.nodes.set node_id node1 }, .ok r.2)

/-- `Graph::add_output_param` (graph_impls.rs:56-64). -/
def Graph.add_output_param {N D V : Type} (g : Graph N D V) (node_id : Nat)
    (name : String) (typ : D) : Graph N D V × Except Panic Nat :=
  let r := g.outputs.insert_with_key (fun output_id =>
    { id := output_id, node := node_id, typ := typ })
  let g1 : Graph N D V := { g with outputs := r.1 }
  match g1.nodes.get node_id with
  | none => (g1, .error Panic.panic)
  | some node =>
    let node1 : Node N := { node with outputs := node.outputs ++ [(name, r.2)] }
    ({ g1 with nodes := g1.nodes.set node_id node1 }, .ok r.2)

/-- `Graph::remove_node` (graph_impls.rs:66-78): retain pass over the
connections, then collect and remove the node's listed input ids, then its
listed output ids, then remove the node.  `self[node_id]` panics when the
node id is dead. -/
def Graph.remove_node {N D V : Type} (g : Graph N D V) (node_id : Nat) :
    Graph N D V × Except Panic Unit :=
  let r := connRetain g.inputs g.outputs node_id g.connections
  let g1 : Graph N D V := { g with connections := r.2 }
  if r.1 then (g1, .error Panic.panic)
  else
    match g1.nodes.get node_id with
    | none => (g1, .error Panic.panic)
    | some node =>
      let g2 : Graph N D V := { g1 with
        inputs := node.inputs.foldl (fun m p => (m.remove p.2).1) g1.inputs }
      let g3 : Graph N D V := { g2 with
        outputs := node.outputs.foldl (fun m p => (m.remove p.2).1) g2.outputs }
      ({ g3 with nodes := (g3.nodes.remove node_id).1 }, .ok ())

/-- `Graph::remove_connection` (graph_impls.rs:80-82). -/
def Graph.remove_connection {N D V : Type} (g : Graph N D V)
    (input_id : Nat) : Graph N D V × Option Nat :=
  ({ g with connections := g.connections.filter (fun c => c.1 != input_id) },
   (g.connections.find? (fun c => c.1 == input_id)).map (fun c => c.2))

/-- `Graph::iter_nodes` (graph_impls.rs:84-86). -/
def Graph.iter_nodes {N D V : Type} (g : Graph N D V) : List Nat :=
  g.nodes.entries.map (fun p => p.1)

/-- `Graph::add_connection` (graph_impls.rs:88-90): unconditional insert,
no validation of either id. -/
def Graph.add_connection {N D V : Type} (g : Graph N D V)
    (output input : Nat) : Graph N D V :=
  { g with connections := connInsert g.connections input output }

/-- `Graph::iter_connections` (graph_impls.rs:92-94): `(InputId, OutputId)`
pairs. -/
def Graph.iter_connections {N D V : Type} (g : Graph N D V) :
    List (Nat × Nat) :=
  g.connections

/-- `Graph::connection` (graph_impls.rs:96-98). -/
def Graph.connection {N D V : Type} (g : Graph N D V) (input : Nat) :
    Option Nat :=
  (g.connections.find? (fun c => c.1 == input)).map (fun c => c.2)

/-- `Graph::any_param_type` (graph_impls.rs:100-106). -/
def Graph.any_param_type {N D V : Type} (g : Graph N D V)
    (param : AnyParameterId) : Except EguiGraphError D :=
  match param with
  | .input i =>
    match g.inputs.get i with
    | some x => .ok x.typ
    | none => .error (.InvalidParameterId param)
  | .output o =>
    match g.outputs.get o with
    | some x => .ok x.typ
    | none => .error (.InvalidParameterId param)

/-- `Graph::get_input` (graph_impls.rs:108-110): panicking arena indexing,
modelled as an `Option`. -/
def Graph.get_input {N D V : Type} (g : Graph N D V) (input : Nat) :
    Option (InputParam D V) :=
  g.inputs.get input

/-- `Graph::get_output` (graph_impls.rs:112-114). -/
def Graph.get_output {N D V : Type} (g : Graph N D V) (output : Nat) :
    Option (OutputParam D) :=
  g.outputs.get output

/-- `Node::get_input` (graph_impls.rs:174-180): first-match lookup by
name. -/
def Node.get_input {N : Type} (n : Node N) (name : String) :
    Except EguiGraphError Nat :=
  match n.inputs.find? (fun p => p.1 == name) with
  | some p => .ok p.2
  | none => .error (.NoParameterNamed n.id name)

/-- `Node::get_output` (graph_impls.rs:182-188). -/
def Node.get_output {N : Type} (n : Node N) (name : String) :
    Except EguiGraphError Nat :=
  match n.outputs.find? (fun p => p.1 == name) with
  | some p => .ok p.2
  | none => .error (.NoParameterNamed n.id name)

/-- `Node::input_ids` (graph_impls.rs:166-168). -/
def Node.input_ids {N : Type} (n : Node N) : List Nat :=
  n.inputs.map (fun p => p.2)

/-- `Node::output_ids` (graph_impls.rs:170-172). -/
def Node.output_ids {N : Type} (n : Node N) : List Nat :=
  n.outputs.map (fun p => p.2)

/-- `InputParam::change_type` (graph_impls.rs:204-207). -/
def InputParam.change_type {D V : Type} (p : InputParam D V)
    (new_data_type : D) (new_value_type : V) : InputParam D V :=
  { p with typ := new_data_type, value := new_value_type }

/-- `Graph::change_input_type` (graph_impls.rs:130-135): if the input id is
live, update its type and value and drop its connection entry; otherwise a
silent no-op. -/
def Graph.change_input_type {N D V : Type} (g : Graph N D V)
    (input_id : Nat) (new_data_type : D) (new_value_type : V) :
    Graph N D V :=
  match g.inputs.get input_id with
  | none => g
  | some input =>
    { g with
      inputs := g.inputs.set input_id
        (input.change_type new_data_type new_value_type),
      connections := g.connections.filter (fun c => c.1 != input_id) }

/-- `Graph::change_output_type` (graph_impls.rs:137-142): if the output id
is live, update its type and drop every connection entry whose value is
this output. -/
def Graph.change_output_type {N D V : Type} (g : Graph N D V)
    (output_id : Nat) (new_data_type : D) : Graph N D V :=
  match g.outputs.get output_id with
  | none => g
  | some output =>
    { g with
      outputs := g.outputs.set output_id { output with typ := new_data_type },
      connections := g.connections.filter (fun c => c.2 != output_id) }

/-- `Graph::change_node_input_type` (graph_impls.rs:116-121). -/
def Graph.change_node_input_type {N D V : Type} (g : Graph N D V)
    (node_id : Nat) (input_name : String) (new_data_type : D)
    (new_value_type : V) : Graph N D V × Except EguiGraphError Unit :=
  match g.nodes.get node_id with
  | none => (g, .error (.UnknownNode node_id))
  | some node =>
    match node.get_input input_name with
    | .error e => (g, .error e)
    | .ok input_id =>
      (g.change_input_type input_id new_data_type new_value_type, .ok ())

/-- `Graph::change_node_output_type` (graph_impls.rs:123-128). -/
def Graph.change_node_output_type {N D V : Type} (g : Graph N D V)
    (node_id : Nat) (output_name : String) (new_data_type : D) :
    Graph N D V × Except EguiGraphError Unit :=
  match g.nodes.get node_id with
  | none => (g, .error (.UnknownNode node_id))
  | some node =>
    match node.get_output output_name with
    | .error e => (g, .error e)
    | .ok output_id =>
      (g.change_output_type output_id new_data_type, .ok ())

/-! ### Basic lemmas about the slot-map model and the connection table -/

/-- Number of connection entries carrying a given input key. -/
def countKey (i : Nat) (l : List (Nat × Nat)) : Nat :=
  (l.filter (fun c => c.1 == i)).length

theorem find?_filter_of_imp {α : Type} (p q : α → Bool) (l : List α)
    (h : ∀ x, p x = true → q x = true) :
    (l.filter q).find? p = l.find? p := by
  induction l with
  | nil => rfl
  | cons a l ih =>
    rcases hq : q a with _ | _
    · have hp : p a = false := by
        rcases hpa : p a with _ | _
        · rfl
        · have := h a hpa
          rw [hq] at this
          exact absurd this (by simp)
      simp [List.filter_cons, hq, List.find?_cons, hp, ih]
    · rcases hp : p a with _ | _
      · simp [List.filter_cons, hq, List.find?_cons, hp, ih]
      · simp [List.filter_cons, hq, List.find?_cons, hp]

theorem find?_filter_key_none {α : Type} (l : List (Nat × α)) (k : Nat) :
    (l.filter (fun p => p.1 != k)).find? (fun p => p.1 == k) = none := by
  rw [List.find?_eq_none]
  intro x hx
  rcases List.mem_filter.mp hx with ⟨_, hne⟩
  simp only [bne_iff_ne, ne_eq] at hne
  simp [hne]

theorem SlotMap.get_remove_self {α : Type} (m : SlotMap α) (k : Nat) :
    ((m.remove k).1).get k = none := by
  simp [SlotMap.remove, SlotMap.get, find?_filter_key_none]

theorem SlotMap.get_remove_ne {α : Type} (m : SlotMap α) (k j : Nat)
    (h : j ≠ k) : ((m.remove k).1).get j = m.get j := by
  simp only [SlotMap.remove, SlotMap.get]
  rw [find?_filter_of_imp]
  intro x hx
  have : x.1 = j := by simpa using hx
  simp [this, h]

theorem SlotMap.get_mem {α : Type} (m : SlotMap α) (k : Nat) (v : α)
    (h : m.get k = some v) : (k, v) ∈ m.entries := by
  simp only [SlotMap.get, Option.map_eq_some'] at h
  rcases h with ⟨p, hp, hv⟩
  have hpk : p.1 = k := by simpa using List.find?_some hp
  have := List.mem_of_find?_eq_some hp
  have : p = (k, v) := by
    cases p
    simp_all
  rw [← this]
  exact List.mem_of_find?_eq_some hp

theorem SlotMap.get_insert_self {α : Type} (m : SlotMap α) (f : Nat → α)
    (hb : ∀ p ∈ m.entries, p.1 < m.next) :
    ((m.insert_with_key f).1).get m.next = some (f m.next) := by
  simp only [SlotMap.insert_with_key, SlotMap.get, List.find?_append]
  have h1 : m.entries.find? (fun p => p.1 == m.next) = none := by
    rw [List.find?_eq_none]
    intro x hx
    have := hb x hx
    simp [Nat.ne_of_lt this]
  simp [h1]

theorem SlotMap.get_insert_ne {α : Type} (m : SlotMap α) (f : Nat → α)
    (k : Nat) (h : k ≠ m.next) :
    ((m.insert_with_key f).1).get k = m.get k := by
  simp only [SlotMap.insert_with_key, SlotMap.get, List.find?_append]
  cases hf : m.entries.find? (fun p => p.1 == k) with
  | some p => simp [hf]
  | none =>
    have hne : ((m.next == k)) = false := by
      simp only [beq_eq_false_iff_ne, ne_eq]
      exact Ne.symm h
    simp [hf, List.find?_cons, hne]

theorem find?_set_list_self {α : Type} (k : Nat) (v : α)
    (l : List (Nat × α)) :
    (l.map (fun p => if p.1 == k then (k, v) else p)).find?
        (fun p => p.1 == k)
      = (l.find? (fun p => p.1 == k)).map (fun _ => (k, v)) := by
  induction l with
  | nil => rfl
  | cons a l ih =>
    rw [List.map_cons]
    rcases ha : a.1 == k with _ | _
    · rw [if_neg (by simp [ha]), List.find?_cons_of_neg _ (by simp [ha]),
        List.find?_cons_of_neg _ (by simp [ha]), ih]
    · rw [if_pos rfl, List.find?_cons_of_pos _ (by simp),
        List.find?_cons_of_pos _ (by simp [ha])]
      rfl

theorem find?_set_list_ne {α : Type} (k j : Nat) (v : α)
    (l : List (Nat × α)) (hjk : j ≠ k) :
    (l.map (fun p => if p.1 == k then (k, v) else p)).find?
        (fun p => p.1 == j)
      = l.find? (fun p => p.1 == j) := by
  induction l with
  | nil => rfl
  | cons a l ih =>
    rw [List.map_cons]
    rcases ha : a.1 == k with _ | _
    · rcases haj : a.1 == j with _ | _
      · rw [if_neg (by simp [ha]), List.find?_cons_of_neg _ (by simp [haj]),
          List.find?_cons_of_neg _ (by simp [haj]), ih]
      · rw [if_neg (by simp [ha]), List.find?_cons_of_pos _ (by simp [haj]),
          List.find?_cons_of_pos _ (by simp [haj])]
    · have hak : a.1 = k := by simpa using ha
      have h1 : ¬(((k : Nat) == j) = true) := by
        simp only [beq_iff_eq]
        exact fun hc => hjk hc.symm
      have h2 : ¬((a.1 == j) = true) := by
        rw [hak]
        exact h1
      rw [if_pos rfl, List.find?_cons_of_neg _ (by simpa using h1),
        List.find?_cons_of_neg _ (by simpa using h2), ih]

theorem SlotMap.get_set_self {α : Type} (m : SlotMap α) (k : Nat) (v : α) :
    (m.set k v).get k = (m.get k).map (fun _ => v) := by
  show ((m.entries.map (fun p => if p.1 == k then (k, v) else p)).find?
      (fun p => p.1 == k)).map (fun p => p.2)
    = ((m.entries.find? (fun p => p.1 == k)).map (fun p => p.2)).map
      (fun _ => v)
  rw [find?_set_list_self]
  cases m.entries.find? (fun p => p.1 == k) <;> rfl

theorem SlotMap.get_set_ne {α : Type} (m : SlotMap α) (k j : Nat) (v : α)
    (h : j ≠ k) : (m.set k v).get j = m.get j := by
  show ((m.entries.map (fun p => if p.1 == k then (k, v) else p)).find?
      (fun p => p.1 == j)).map (fun p => p.2)
    = (m.entries.find? (fun p => p.1 == j)).map (fun p => p.2)
  rw [find?_set_list_ne k j v m.entries h]

theorem SlotMap.get_foldl_remove {α : Type} (l : List (String × Nat))
    (m : SlotMap α) (k : Nat) :
    (l.foldl (fun m p => (m.remove p.2).1) m).get k
      = if l.any (fun p => p.2 == k) then none else m.get k := by
  induction l generalizing m with
  | nil => simp
  | cons a l ih =>
    rw [List.foldl_cons, ih, List.any_cons]
    rcases ha : a.2 == k with _ | _
    · rcases hl : l.any (fun p => p.2 == k) with _ | _
      · have hne : k ≠ a.2 := by
          intro hc
          rw [hc] at ha
          simp at ha
        simp [SlotMap.get_remove_ne _ _ _ hne]
      · simp
    · have hk : a.2 = k := by simpa using ha
      rcases hl : l.any (fun p => p.2 == k) with _ | _
      · rw [← hk]
        simp [SlotMap.get_remove_self]
      · simp

theorem SlotMap.mem_foldl_remove {α : Type} (l : List (String × Nat))
    (m : SlotMap α) (q : Nat × α) :
    q ∈ (l.foldl (fun m p => (m.remove p.2).1) m).entries
      ↔ q ∈ m.entries ∧ ∀ p ∈ l, q.1 ≠ p.2 := by
  induction l generalizing m with
  | nil => simp
  | cons a l ih =>
    rw [List.foldl_cons, ih]
    constructor
    · rintro ⟨hmem, hrest⟩
      rcases List.mem_filter.mp hmem with ⟨hm, hne⟩
      refine ⟨hm, ?_⟩
      intro p hp
      rcases List.mem_cons.mp hp with hp | hp
      · subst hp
        simpa using hne
      · exact hrest p hp
    · rintro ⟨hm, hall⟩
      have hhead : q.1 ≠ a.2 := hall a (by simp)
      refine ⟨List.mem_filter.mpr ⟨hm, by simpa using hhead⟩, ?_⟩
      intro p hp
      exact hall p (List.mem_cons_of_mem _ hp)

/-! ### Lemmas about the retain pass of `remove_node` -/

theorem connRetain_sublist {D V : Type} (ins : SlotMap (InputParam D V))
    (outs : SlotMap (OutputParam D)) (n : Nat) (l : List (Nat × Nat)) :
    (connRetain ins outs n l).2.Sublist l := by
  induction l with
  | nil => simp [connRetain]
  | cons c rest ih =>
    rw [connRetain]
    cases outs.get c.2 with
    | none => simp
    | some op =>
      rcases hop : op.node == n with _ | _
      · simp only [hop]
        cases ins.get c.1 with
        | none => simp
        | some ip =>
          rcases hip : ip.node == n with _ | _
          · simp only [hip]
            exact List.Sublist.cons₂ c ih
          · simp only [hip]
            exact List.Sublist.cons c ih
      · simp only [hop]
        exact List.Sublist.cons c ih

theorem connRetain_no_panic {D V : Type} (ins : SlotMap (InputParam D V))
    (outs : SlotMap (OutputParam D)) (n : Nat) (l : List (Nat × Nat))
    (h : ∀ c ∈ l, (outs.get c.2).isSome ∧ (ins.get c.1).isSome) :
    (connRetain ins outs n l).1 = false := by
  induction l with
  | nil => rfl
  | cons c rest ih =>
    have hc := h c (by simp)
    have hrest : ∀ c ∈ rest, (outs.get c.2).isSome ∧ (ins.get c.1).isSome :=
      fun x hx => h x (List.mem_cons_of_mem _ hx)
    rw [connRetain]
    cases ho : outs.get c.2 with
    | none =>
      rw [ho] at hc
      simp at hc
    | some op =>
      rcases hop : op.node == n with _ | _
      · simp only [hop]
        cases hi : ins.get c.1 with
        | none =>
          rw [hi] at hc
          simp at hc
        | some ip =>
          rcases hip : ip.node == n with _ | _
          · simp only [hip]
            exact ih hrest
          · simp only [hip]
            exact ih hrest
      · simp only [hop]
        exact ih hrest

theorem connRetain_mem {D V : Type} (ins : SlotMap (InputParam D V))
    (outs : SlotMap (OutputParam D)) (n : Nat) (l : List (Nat × Nat))
    (h : ∀ c ∈ l, (outs.get c.2).isSome ∧ (ins.get c.1).isSome)
    (c : Nat × Nat) (hc : c ∈ (connRetain ins outs n l).2) :
    c ∈ l ∧ (∀ op, outs.get c.2 = some op → op.node ≠ n)
      ∧ (∀ ip, ins.get c.1 = some ip → ip.node ≠ n) := by
  induction l with
  | nil => simp [connRetain] at hc
  | cons a rest ih =>
    have ha := h a (by simp)
    have hrest : ∀ x ∈ rest, (outs.get x.2).isSome ∧ (ins.get x.1).isSome :=
      fun x hx => h x (List.mem_cons_of_mem _ hx)
    cases ho : outs.get a.2 with
    | none =>
      rw [ho] at ha
      simp at ha
    | some op =>
      cases hi : ins.get a.1 with
      | none =>
        rw [hi] at ha
        simp at ha
      | some ip =>
        rcases hop : op.node == n with _ | _
        · rcases hip : ip.node == n with _ | _
          · simp only [connRetain, ho, hi, hop, hip, Bool.false_eq_true,
              if_false, List.mem_cons] at hc
            rcases hc with hc | hc
            · subst hc
              refine ⟨by simp, ?_, ?_⟩
              · intro op' hop'
                rw [ho] at hop'
                cases hop'
                simpa using hop
              · intro ip' hip'
                rw [hi] at hip'
                cases hip'
                simpa using hip
            · rcases ih hrest hc with ⟨h1, h2, h3⟩
              exact ⟨List.mem_cons_of_mem _ h1, h2, h3⟩
          · simp only [connRetain, ho, hi, hop, hip, Bool.false_eq_true,
              if_false, if_true] at hc
            rcases ih hrest hc with ⟨h1, h2, h3⟩
            exact ⟨List.mem_cons_of_mem _ h1, h2, h3⟩
        · simp only [connRetain, ho, hop, if_true] at hc
          rcases ih hrest hc with ⟨h1, h2, h3⟩
          exact ⟨List.mem_cons_of_mem _ h1, h2, h3⟩

theorem connRetain_keep_all {D V : Type} (ins : SlotMap (InputParam D V))
    (outs : SlotMap (OutputParam D)) (n : Nat) (l : List (Nat × Nat))
    (h : ∀ c ∈ l, (∃ op, outs.get c.2 = some op ∧ op.node ≠ n)
      ∧ (∃ ip, ins.get c.1 = some ip ∧ ip.node ≠ n)) :
    connRetain ins outs n l = (false, l) := by
  induction l with
  | nil => rfl
  | cons a rest ih =>
    rcases h a (by simp) with ⟨⟨op, ho, hop⟩, ⟨ip, hi, hip⟩⟩
    have hrest := fun x hx => h x (List.mem_cons_of_mem _ hx)
    have hop' : (op.node == n) = false := by simpa using hop
    have hip' : (ip.node == n) = false := by simpa using hip
    simp only [connRetain, ho, hi, hop', hip', Bool.false_eq_true, if_false,
      ih hrest]

/-! ### Lemmas about the connection table -/

theorem find?_connInsert_self (l : List (Nat × Nat)) (i o : Nat) :
    (connInsert l i o).find? (fun c => c.1 == i) = some (i, o) := by
  unfold connInsert
  rcases hany : l.any (fun c => c.1 == i) with _ | _
  · simp only [Bool.false_eq_true, if_false, List.find?_append]
    have h1 : l.find? (fun c => c.1 == i) = none := by
      rw [List.find?_eq_none]
      intro x hx hxk
      have hx1 : l.any (fun c => c.1 == i) = true :=
        List.any_eq_true.mpr ⟨x, hx, hxk⟩
      rw [hany] at hx1
      simp at hx1
    simp [h1, List.find?_cons]
  · simp only [if_true]
    have := find?_set_list_self i o l
    rw [this]
    cases hf : l.find? (fun c => c.1 == i) with
    | none =>
      rcases List.any_eq_true.mp hany with ⟨x, hx, hxk⟩
      rw [List.find?_eq_none] at hf
      exact absurd hxk (hf x hx)
    | some p => rfl

theorem find?_connInsert_ne (l : List (Nat × Nat)) (i o j : Nat)
    (h : j ≠ i) :
    (connInsert l i o).find? (fun c => c.1 == j)
      = l.find? (fun c => c.1 == j) := by
  unfold connInsert
  rcases hany : l.any (fun c => c.1 == i) with _ | _
  · simp only [Bool.false_eq_true, if_false, List.find?_append]
    cases hf : l.find? (fun c => c.1 == j) with
    | some p => simp [hf]
    | none =>
      have : ((i == j)) = false := by
        simp only [beq_eq_false_iff_ne, ne_eq]
        exact Ne.symm h
      simp [hf, List.find?_cons, this]
  · simp only [if_true]
    exact find?_set_list_ne i j o l h

theorem filter_map_overwrite (l : List (Nat × Nat)) (i o : Nat) :
    (l.map (fun c => if c.1 == i then (i, o) else c)).filter
        (fun c => c.1 == i)
      = (l.filter (fun c => c.1 == i)).map (fun _ => (i, o)) := by
  induction l with
  | nil => rfl
  | cons a t ih =>
    by_cases hak : a.1 = i
    · have hba : (a.1 == i) = true := by simp [hak]
      rw [List.map_cons, if_pos hba, List.filter_cons, List.filter_cons,
        if_pos (by simp : ((((i, o) : Nat × Nat).1 == i)) = true),
        if_pos hba, List.map_cons, ih]
    · have hba : (a.1 == i) = false := by simp [hak]
      rw [List.map_cons, if_neg (by simp [hak]), List.filter_cons,
        List.filter_cons, if_neg (by simp [hak]), if_neg (by simp [hak]), ih]

theorem filter_map_overwrite_ne (l : List (Nat × Nat)) (i o j : Nat)
    (h : j ≠ i) :
    (l.map (fun c => if c.1 == i then (i, o) else c)).filter
        (fun c => c.1 == j)
      = l.filter (fun c => c.1 == j) := by
  induction l with
  | nil => rfl
  | cons a t ih =>
    by_cases hak : a.1 = i
    · have hba : (a.1 == i) = true := by simp [hak]
      rw [List.map_cons, if_pos hba, List.filter_cons, List.filter_cons,
        if_neg (by simp [Ne.symm h]), if_neg (by simp [hak, Ne.symm h]), ih]
    · rw [List.map_cons, if_neg (by simp [hak]), List.filter_cons,
        List.filter_cons]
      by_cases haj : a.1 = j
      · rw [if_pos (by simp [haj]), if_pos (by simp [haj]), ih]
      · rw [if_neg (by simp [haj]), if_neg (by simp [haj]), ih]

theorem countKey_connInsert_self (l : List (Nat × Nat)) (i o : Nat)
    (h : countKey i l ≤ 1) : countKey i (connInsert l i o) = 1 := by
  unfold connInsert countKey
  rcases hany : l.any (fun c => c.1 == i) with _ | _
  · have h0 : l.filter (fun c => c.1 == i) = [] := by
      rw [List.filter_eq_nil_iff]
      intro x hx hxk
      have hx1 : l.any (fun c => c.1 == i) = true :=
        List.any_eq_true.mpr ⟨x, hx, hxk⟩
      rw [hany] at hx1
      simp at hx1
    simp [List.filter_append, h0]
  · simp only [if_true]
    rw [filter_map_overwrite, List.length_map]
    have hge : 0 < (l.filter (fun c => c.1 == i)).length := by
      rcases List.any_eq_true.mp hany with ⟨x, hx, hxk⟩
      exact List.length_pos_of_mem (List.mem_filter.mpr ⟨hx, hxk⟩)
    have hle : (l.filter (fun c => c.1 == i)).length ≤ 1 := h
    omega

theorem countKey_connInsert_ne (l : List (Nat × Nat)) (i o j : Nat)
    (h : j ≠ i) : countKey j (connInsert l i o) = countKey j l := by
  unfold connInsert countKey
  rcases hany : l.any (fun c => c.1 == i) with _ | _
  · have hnj : (((i : Nat) == j)) = false := by
      simp only [beq_eq_false_iff_ne, ne_eq]
      exact Ne.symm h
    simp [List.filter_append, hnj]
  · simp only [if_true]
    rw [filter_map_overwrite_ne l i o j h]

theorem countKey_sublist (j : Nat) (l1 l2 : List (Nat × Nat))
    (h : l1.Sublist l2) : countKey j l1 ≤ countKey j l2 :=
  List.Sublist.length_le (List.Sublist.filter _ h)

theorem mem_connInsert (l : List (Nat × Nat)) (i o : Nat) (c : Nat × Nat)
    (hc : c ∈ connInsert l i o) : c ∈ l ∨ c = (i, o) := by
  unfold connInsert at hc
  rcases hany : l.any (fun x => x.1 == i) with _ | _
  · rw [hany] at hc
    simp only [Bool.false_eq_true, if_false, List.mem_append,
      List.mem_singleton] at hc
    exact hc
  · rw [hany] at hc
    simp only [if_true, List.mem_map] at hc
    rcases hc with ⟨p, hp, hpc⟩
    by_cases hpi : (p.1 == i) = true
    · rw [if_pos hpi] at hpc
      right
      exact hpc.symm
    · rw [if_neg hpi] at hpc
      left
      rw [← hpc]
      exact hp

/-! ### Claims -/

/-- C8: For every input id `i`, `remove_connection i` never fails: it
returns the previously connected output (or nothing when no entry keyed by
`i` exists), and afterwards `connection i` returns nothing.  Totality is
expressed by the return type: the operation produces a graph and an
`Option`, never an error. -/
theorem C8_remove_connection_total {N D V : Type} (g : Graph N D V)
    (i : Nat) :
    (g.remove_connection i).2 = g.connection i
      ∧ (g.remove_connection i).1.connection i = none := by
  constructor
  · rfl
  · show ((g.connections.filter (fun c => c.1 != i)).find?
        (fun c => c.1 == i)).map (fun c => c.2) = none
    rw [find?_filter_key_none]
    rfl

/-- C10: `add_connection` validates nothing: for every graph and every
pair of ids — live, stale or never allocated — it succeeds (its type is
total) and records the entry, so `connection input` afterwards returns the
given output and the pair shows up in `iter_connections`.  In particular,
on the empty graph it happily creates an entry both of whose ports resolve
to nothing. -/
theorem C10_add_connection_unvalidated {N D V : Type} :
    (∀ (g : Graph N D V) (o i : Nat),
      (g.add_connection o i).connection i = some o
        ∧ (i, o) ∈ (g.add_connection o i).iter_connections)
    ∧ ((((Graph.new : Graph Unit Unit Unit).add_connection 5 7).connection 7
          = some 5)
        ∧ ((Graph.new : Graph Unit Unit Unit).add_connection 5 7).inputs.get 7
          = none
        ∧ ((Graph.new : Graph Unit Unit Unit).add_connection 5 7).outputs.get
          5 = none) := by
  refine ⟨?_, by decide, by decide, by decide⟩
  intro g o i
  constructor
  · show ((connInsert g.connections i o).find? (fun c => c.1 == i)).map
      (fun c => c.2) = some o
    rw [find?_connInsert_self]
    rfl
  · exact List.mem_of_find?_eq_some (find?_connInsert_self g.connections i o)

/-- C6: `remove_node` on a node id that never existed or was already
removed fails (the arena indexing `self[node_id]` panics); it does not
return normally. -/
theorem C6_remove_node_dead_id_fails {N D V : Type} (g : Graph N D V)
    (node_id : Nat) (h : g.nodes.get node_id = none) :
    (g.remove_node node_id).2 = .error Panic.panic := by
  unfold Graph.remove_node
  rcases hr : (connRetain g.inputs g.outputs node_id g.connections).1
      with _ | _
  · simp only [hr, Bool.false_eq_true, if_false]
    have hg1 : ({ g with
        connections :=
          (connRetain g.inputs g.outputs node_id g.connections).2 } :
        Graph N D V).nodes.get node_id = none := h
    simp only [hg1]
  · simp only [hr, if_true]

/-- Witness for C6 at a concrete input: the empty graph has no node `0`,
and removing node `0` reports the panic. -/
theorem C6_witness :
    ((Graph.new : Graph Unit Unit Unit).nodes.get 0 = none)
      ∧ ((Graph.new : Graph Unit Unit Unit).remove_node 0).2
        = .error Panic.panic :=
  ⟨by decide, C6_remove_node_dead_id_fails Graph.new 0 (by decide)⟩

/-! ### Arbitrary sequences of public mutation operations (for C4) -/

/-- A first-order syntax for the public mutation API.  `addNode` carries
the list of operations performed by its initialization closure (the
closure receives mutable access to the graph and can only act through this
same API; port/connection calls it makes are represented by `body`). -/
inductive GraphOp (N D V : Type) where
  | addNode (label : String) (user_data : N) (body : List (GraphOp N D V))
  | addInputParam (node_id : Nat) (name : String) (typ : D) (value : V)
      (kind : InputParamKind) (shown_inline : Bool)
  | addOutputParam (node_id : Nat) (name : String) (typ : D)
  | removeNode (node_id : Nat)
  | removeConnection (input_id : Nat)
  | addConnection (output input : Nat)
  | changeNodeInputType (node_id : Nat) (name : String) (typ : D) (value : V)
  | changeNodeOutputType (node_id : Nat) (name : String) (typ : D)

mutual

/-- Run one public mutation; when the operation fails (a lookup error or
a modelled panic), the state reached at the failure is kept, which only
makes the reachable-state set larger. -/
def applyOp {N D V : Type} (g : Graph N D V) : GraphOp N D V → Graph N D V
  | .addNode label ud body =>
    (g.add_node label ud (fun g0 _ => applyOps g0 body)).1
  | .addInputParam node_id name typ value kind si =>
    (g.add_input_param node_id name typ value kind si).1
  | .addOutputParam node_id name typ =>
    (g.add_output_param node_id name typ).1
  | .removeNode node_id => (g.remove_node node_id).1
  | .removeConnection input_id => (g.remove_connection input_id).1
  | .addConnection o i => g.add_connection o i
  | .changeNodeInputType node_id name typ value =>
    (g.change_node_input_type node_id name typ value).1
  | .changeNodeOutputType node_id name typ =>
    (g.change_node_output_type node_id name typ).1

/-- Run a list of public mutations in order. -/
def applyOps {N D V : Type} (g : Graph N D V) :
    List (GraphOp N D V) → Graph N D V
  | [] => g
  | op :: rest => applyOps (applyOp g op) rest

end

theorem connections_add_input_param {N D V : Type} (g : Graph N D V)
    (n : Nat) (nm : String) (t : D) (v : V) (k : InputParamKind)
    (si : Bool) :
    (g.add_input_param n nm t v k si).1.connections = g.connections := by
  cases hget : g.nodes.get n <;> simp [Graph.add_input_param, hget]

theorem connections_add_output_param {N D V : Type} (g : Graph N D V)
    (n : Nat) (nm : String) (t : D) :
    (g.add_output_param n nm t).1.connections = g.connections := by
  cases hget : g.nodes.get n <;> simp [Graph.add_output_param, hget]

theorem connections_remove_node {N D V : Type} (g : Graph N D V)
    (n : Nat) :
    (g.remove_node n).1.connections
      = (connRetain g.inputs g.outputs n g.connections).2 := by
  unfold Graph.remove_node
  rcases hr : (connRetain g.inputs g.outputs n g.connections).1 with _ | _
  · simp only [hr, Bool.false_eq_true, if_false]
    cases hget : ({ g with
        connections := (connRetain g.inputs g.outputs n g.connections).2 } :
        Graph N D V).nodes.get n <;> simp [hget]
  · simp only [hr, if_true]

theorem connections_change_node_input_type {N D V : Type} (g : Graph N D V)
    (n : Nat) (nm : String) (t : D) (v : V) :
    ((g.change_node_input_type n nm t v).1.connections = g.connections)
      ∨ ∃ i, (g.change_node_input_type n nm t v).1.connections
        = g.connections.filter (fun c => c.1 != i) := by
  unfold Graph.change_node_input_type
  split
  · left; rfl
  · split
    · left; rfl
    · unfold Graph.change_input_type
      split
      · left; rfl
      · right
        exact ⟨_, rfl⟩

theorem connections_change_node_output_type {N D V : Type}
    (g : Graph N D V) (n : Nat) (nm : String) (t : D) :
    ((g.change_node_output_type n nm t).1.connections = g.connections)
      ∨ ∃ o, (g.change_node_output_type n nm t).1.connections
        = g.connections.filter (fun c => c.2 != o) := by
  unfold Graph.change_node_output_type
  split
  · left; rfl
  · split
    · left; rfl
    · unfold Graph.change_output_type
      split
      · left; rfl
      · right
        exact ⟨_, rfl⟩

/-- At most one connection entry per input key. -/
def connOK {N D V : Type} (g : Graph N D V) : Prop :=
  ∀ j, countKey j g.connections ≤ 1

mutual

theorem applyOp_connOK {N D V : Type} (g : Graph N D V)
    (op : GraphOp N D V) (h : connOK g) : connOK (applyOp g op) := by
  cases op with
  | addNode label ud body =>
    exact applyOps_connOK _ body h
  | addInputParam node_id name typ value kind si =>
    intro j
    rw [show (applyOp g (.addInputParam node_id name typ value kind si))
        = (g.add_input_param node_id name typ value kind si).1 from rfl]
    rw [connections_add_input_param]
    exact h j
  | addOutputParam node_id name typ =>
    intro j
    rw [show (applyOp g (.addOutputParam node_id name typ))
        = (g.add_output_param node_id name typ).1 from rfl]
    rw [connections_add_output_param]
    exact h j
  | removeNode node_id =>
    intro j
    rw [show (applyOp g (.removeNode node_id))
        = (g.remove_node node_id).1 from rfl]
    rw [connections_remove_node]
    exact le_trans
      (countKey_sublist j _ _ (connRetain_sublist g.inputs g.outputs
        node_id g.connections)) (h j)
  | removeConnection input_id =>
    intro j
    exact le_trans
      (countKey_sublist j _ _ (List.filter_sublist g.connections)) (h j)
  | addConnection o i =>
    intro j
    by_cases hji : j = i
    · subst hji
      rw [show (applyOp g (.addConnection o j)).connections
          = connInsert g.connections j o from rfl]
      rw [countKey_connInsert_self _ _ _ (h j)]
    · rw [show (applyOp g (.addConnection o i)).connections
          = connInsert g.connections i o from rfl]
      rw [countKey_connInsert_ne _ _ _ _ hji]
      exact h j
  | changeNodeInputType node_id name typ value =>
    intro j
    rcases connections_change_node_input_type g node_id name typ value
        with hc | ⟨i, hc⟩
    · rw [show (applyOp g (.changeNodeInputType node_id name typ value))
          = (g.change_node_input_type node_id name typ value).1 from rfl,
        hc]
      exact h j
    · rw [show (applyOp g (.changeNodeInputType node_id name typ value))
          = (g.change_node_input_type node_id name typ value).1 from rfl,
        hc]
      exact le_trans
        (countKey_sublist j _ _ (List.filter_sublist g.connections)) (h j)
  | changeNodeOutputType node_id name typ =>
    intro j
    rcases connections_change_node_output_type g node_id name typ
        with hc | ⟨o, hc⟩
    · rw [show (applyOp g (.changeNodeOutputType node_id name typ))
          = (g.change_node_output_type node_id name typ).1 from rfl, hc]
      exact h j
    · rw [show (applyOp g (.changeNodeOutputType node_id name typ))
          = (g.change_node_output_type node_id name typ).1 from rfl, hc]
      exact le_trans
        (countKey_sublist j _ _ (List.filter_sublist g.connections)) (h j)

theorem applyOps_connOK {N D V : Type} (g : Graph N D V)
    (ops : List (GraphOp N D V)) (h : connOK g) :
    connOK (applyOps g ops) := by
  cases ops with
  | nil => exact h
  | cons op rest => exact applyOps_connOK _ rest (applyOp_connOK _ op h)

end

/-- C4: Overwrite semantics and the at-most-one-source invariant.  For any
graph reachable from the empty graph by a sequence of public mutation
operations: after `add_connection o1 i` followed by `add_connection o2 i`,
exactly one connection entry has key `i` and `connection i` returns `o2`;
and in every reachable graph every input key carries at most one
`iter_connections` entry. -/
theorem C4_connection_overwrite_and_unique {N D V : Type}
    (ops : List (GraphOp N D V)) (i o1 o2 : Nat) :
    (countKey i (((applyOps (Graph.new : Graph N D V) ops).add_connection
          o1 i).add_connection o2 i).connections = 1
      ∧ (((applyOps (Graph.new : Graph N D V) ops).add_connection
          o1 i).add_connection o2 i).connection i = some o2)
    ∧ ∀ j, countKey j (applyOps (Graph.new : Graph N D V)
        ops).iter_connections ≤ 1 := by
  have h0 : connOK (Graph.new : Graph N D V) := by
    intro j
    simp [Graph.new, countKey]
  have hg : connOK (applyOps (Graph.new : Graph N D V) ops) :=
    applyOps_connOK _ ops h0
  refine ⟨⟨?_, ?_⟩, hg⟩
  · have h1 : countKey i ((applyOps (Graph.new : Graph N D V)
        ops).add_connection o1 i).connections = 1 := by
      rw [show ((applyOps (Graph.new : Graph N D V) ops).add_connection
          o1 i).connections
          = connInsert (applyOps (Graph.new : Graph N D V) ops).connections
            i o1 from rfl]
      exact countKey_connInsert_self _ _ _ (hg i)
    rw [show (((applyOps (Graph.new : Graph N D V) ops).add_connection
        o1 i).add_connection o2 i).connections
        = connInsert ((applyOps (Graph.new : Graph N D V)
            ops).add_connection o1 i).connections i o2 from rfl]
    exact countKey_connInsert_self _ _ _ (le_of_eq h1)
  · show ((connInsert ((applyOps (Graph.new : Graph N D V)
        ops).add_connection o1 i).connections i o2).find?
          (fun c => c.1 == i)).map (fun c => c.2) = some o2
    rw [find?_connInsert_self]
    rfl

theorem change_input_type_result_cases {N D V : Type} (g : Graph N D V)
    (n : Nat) (name : String) (t : D) (v : V)
    (hid : ∀ q ∈ g.nodes.entries, q.2.id = q.1) :
    ((g.change_node_input_type n name t v).2
        = .error (.UnknownNode n) ↔ g.nodes.get n = none)
    ∧ ((g.change_node_input_type n name t v).2
          = .error (.NoParameterNamed n name)
        ↔ ∃ node, g.nodes.get n = some node
            ∧ node.inputs.find? (fun p => p.1 == name) = none)
    ∧ ((g.change_node_input_type n name t v).2 = .ok ()
        ↔ ∃ node, g.nodes.get n = some node
            ∧ (node.inputs.find? (fun p => p.1 == name)).isSome) := by
  cases hg : g.nodes.get n with
  | none =>
    have hres : (g.change_node_input_type n name t v).2
        = .error (.UnknownNode n) := by
      simp only [Graph.change_node_input_type, hg]
    refine ⟨?_, ?_, ?_⟩ <;> simp [hres, hg]
  | some node =>
    have hidn : node.id = n := hid _ (SlotMap.get_mem _ _ _ hg)
    cases hf : node.inputs.find? (fun p => p.1 == name) with
    | none =>
      have hgi : node.get_input name
          = .error (.NoParameterNamed node.id name) := by
        simp only [Node.get_input, hf]
      have hres : (g.change_node_input_type n name t v).2
          = .error (.NoParameterNamed n name) := by
        simp only [Graph.change_node_input_type, hg, hgi, hidn]
      have hfa : ∀ a b, (a, b) ∈ node.inputs → ¬ a = name := by
        intro a b hab hcontra
        have hx := List.find?_eq_none.mp hf _ hab
        simp [hcontra] at hx
      have hfb : ∀ x, (name, x) ∉ node.inputs :=
        fun x hx => hfa name x hx rfl
      refine ⟨?_, ?_, ?_⟩ <;> (simp [hres, hg, hf, hfa, hfb]; try exact hfa)
    | some p =>
      have hgi : node.get_input name = .ok p.2 := by
        simp only [Node.get_input, hf]
      have hres : (g.change_node_input_type n name t v).2 = .ok () := by
        simp only [Graph.change_node_input_type, hg, hgi]
      have hp1 : p.1 = name := by simpa using List.find?_some hf
      have hpm : (name, p.2) ∈ node.inputs := by
        have hm := List.mem_of_find?_eq_some hf
        have hpe : p = (name, p.2) := by
          cases p
          simp_all
        rwa [hpe] at hm
      have hex : ∃ x, (name, x) ∈ node.inputs := ⟨p.2, hpm⟩
      refine ⟨?_, ?_, ?_⟩ <;> simp [hres, hg, hf, hex]

theorem change_output_type_result_cases {N D V : Type} (g : Graph N D V)
    (n : Nat) (name : String) (t : D)
    (hid : ∀ q ∈ g.nodes.entries, q.2.id = q.1) :
    ((g.change_node_output_type n name t).2
        = .error (.UnknownNode n) ↔ g.nodes.get n = none)
    ∧ ((g.change_node_output_type n name t).2
          = .error (.NoParameterNamed n name)
        ↔ ∃ node, g.nodes.get n = some node
            ∧ node.outputs.find? (fun p => p.1 == name) = none)
    ∧ ((g.change_node_output_type n name t).2 = .ok ()
        ↔ ∃ node, g.nodes.get n = some node
            ∧ (node.outputs.find? (fun p => p.1 == name)).isSome) := by
  cases hg : g.nodes.get n with
  | none =>
    have hres : (g.change_node_output_type n name t).2
        = .error (.UnknownNode n) := by
      simp only [Graph.change_node_output_type, hg]
    refine ⟨?_, ?_, ?_⟩ <;> simp [hres, hg]
  | some node =>
    have hidn : node.id = n := hid _ (SlotMap.get_mem _ _ _ hg)
    cases hf : node.outputs.find? (fun p => p.1 == name) with
    | none =>
      have hgo : node.get_output name
          = .error (.NoParameterNamed node.id name) := by
        simp only [Node.get_output, hf]
      have hres : (g.change_node_output_type n name t).2
          = .error (.NoParameterNamed n name) := by
        simp only [Graph.change_node_output_type, hg, hgo, hidn]
      have hfa : ∀ a b, (a, b) ∈ node.outputs → ¬ a = name := by
        intro a b hab hcontra
        have hx := List.find?_eq_none.mp hf _ hab
        simp [hcontra] at hx
      have hfb : ∀ x, (name, x) ∉ node.outputs :=
        fun x hx => hfa name x hx rfl
      refine ⟨?_, ?_, ?_⟩ <;> (simp [hres, hg, hf, hfa, hfb]; try exact hfa)
    | some p =>
      have hgo : node.get_output name = .ok p.2 := by
        simp only [Node.get_output, hf]
      have hres : (g.change_node_output_type n name t).2 = .ok () := by
        simp only [Graph.change_node_output_type, hg, hgo]
      have hp1 : p.1 = name := by simpa using List.find?_some hf
      have hpm : (name, p.2) ∈ node.outputs := by
        have hm := List.mem_of_find?_eq_some hf
        have hpe : p = (name, p.2) := by
          cases p
          simp_all
        rwa [hpe] at hm
      have hex : ∃ x, (name, x) ∈ node.outputs := ⟨p.2, hpm⟩
      refine ⟨?_, ?_, ?_⟩ <;> simp [hres, hg, hf, hex]

/-- C7: On a graph whose node arena is id-coherent (each stored record's
`id` equals its key — true of every record the code creates),
`change_node_input_type` (resp. `change_node_output_type`) fails with
`UnknownNode` exactly when the node id does not resolve, fails with
`NoParameterNamed` exactly when the node is live but no input (resp.
output) of that name exists, and succeeds exactly otherwise. -/
theorem C7_change_type_error_cases {N D V : Type} (g : Graph N D V)
    (n : Nat) (name : String) (t : D) (v : V)
    (hid : ∀ q ∈ g.nodes.entries, q.2.id = q.1) :
    (((g.change_node_input_type n name t v).2
        = .error (.UnknownNode n) ↔ g.nodes.get n = none)
      ∧ ((g.change_node_input_type n name t v).2
            = .error (.NoParameterNamed n name)
          ↔ ∃ node, g.nodes.get n = some node
              ∧ node.inputs.find? (fun p => p.1 == name) = none)
      ∧ ((g.change_node_input_type n name t v).2 = .ok ()
          ↔ ∃ node, g.nodes.get n = some node
              ∧ (node.inputs.find? (fun p => p.1 == name)).isSome))
    ∧ (((g.change_node_output_type n name t).2
        = .error (.UnknownNode n) ↔ g.nodes.get n = none)
      ∧ ((g.change_node_output_type n name t).2
            = .error (.NoParameterNamed n name)
          ↔ ∃ node, g.nodes.get n = some node
              ∧ node.outputs.find? (fun p => p.1 == name) = none)
      ∧ ((g.change_node_output_type n name t).2 = .ok ()
          ↔ ∃ node, g.nodes.get n = some node
              ∧ (node.outputs.find? (fun p => p.1 == name)).isSome)) :=
  ⟨change_input_type_result_cases g n name t v hid,
   change_output_type_result_cases g n name t hid⟩

/-- Concrete graph used by several witnesses: one node (id `0`, label
`"N"`) with input `0` named `"x"` and output `0` named `"out"`, and the
connection `(input 0, output 0)`, all built through the public API. -/
def sampleG : Graph Nat Nat Nat :=
  let g1 := ((Graph.new : Graph Nat Nat Nat).add_node "N" 7
    (fun g _ => g)).1
  let g2 := (g1.add_input_param 0 "x" 3 5 InputParamKind.ConnectionOrConstant
    true).1
  let g3 := (g2.add_output_param 0 "out" 3).1
  g3.add_connection 0 0

/-- The node record of `sampleG` as created by the public API. -/
def sampleNode : Node Nat :=
  { id := 0, label := "N", inputs := [("x", 0)], outputs := [("out", 0)],
    user_data := 7 }

/-- Witness for C7 at a concrete input: on `sampleG`, asking node `0` to
retype an input named `"nope"` fails with `NoParameterNamed`. -/
theorem C7_witness :
    (sampleG.change_node_input_type 0 "nope" 1 1).2
      = .error (.NoParameterNamed 0 "nope") := by
  have h := C7_change_type_error_cases sampleG 0 "nope" 1 1 (by decide)
  exact h.1.2.1.mpr ⟨sampleNode, by decide, by decide⟩

/-- C3: For a live node `n` with a live input found under `name` that
currently has a connection, a successful `change_node_input_type` removes
that connection (`connection` on that input id returns nothing afterwards)
and replaces the input's stored type and value with the new ones. -/
theorem C3_change_input_type_severs {N D V : Type} (g : Graph N D V)
    (n i o : Nat) (node : Node N) (name : String) (t : D) (v : V)
    (ip : InputParam D V)
    (hg : g.nodes.get n = some node)
    (hni : node.get_input name = .ok i)
    (hip : g.inputs.get i = some ip)
    (hconn : g.connection i = some o) :
    (g.change_node_input_type n name t v).2 = .ok ()
      ∧ (g.change_node_input_type n name t v).1.connection i = none
      ∧ (g.change_node_input_type n name t v).1.inputs.get i
        = some (ip.change_type t v) := by
  have hres : g.change_node_input_type n name t v
      = (g.change_input_type i t v, .ok ()) := by
    simp only [Graph.change_node_input_type, hg, hni]
  have hcit : g.change_input_type i t v = { g with
      inputs := g.inputs.set i (ip.change_type t v),
      connections := g.connections.filter (fun c => c.1 != i) } := by
    simp only [Graph.change_input_type, hip]
  rw [hres, hcit]
  refine ⟨rfl, ?_, ?_⟩
  · show ((g.connections.filter (fun c => c.1 != i)).find?
        (fun c => c.1 == i)).map (fun c => c.2) = none
    rw [find?_filter_key_none]
    rfl
  · show (g.inputs.set i (ip.change_type t v)).get i
      = some (ip.change_type t v)
    rw [SlotMap.get_set_self, hip]
    rfl

/-- The input-param record of `sampleG` as created by the public API. -/
def sampleIn : InputParam Nat Nat :=
  { id := 0, typ := 3, value := 5,
    kind := InputParamKind.ConnectionOrConstant, node := 0,
    shown_inline := true }

/-- Witness for C3 at a concrete input: on `sampleG`, retyping input
`"x"` of node `0` succeeds, severs the connection of input `0`, and
stores the new type `9` and value `11`. -/
theorem C3_witness :
    (sampleG.change_node_input_type 0 "x" 9 11).2 = .ok ()
      ∧ (sampleG.change_node_input_type 0 "x" 9 11).1.connection 0 = none
      ∧ (sampleG.change_node_input_type 0 "x" 9 11).1.inputs.get 0
        = some (sampleIn.change_type 9 11) :=
  C3_change_input_type_severs sampleG 0 0 0 sampleNode "x" 9 11 sampleIn
    (by decide) (by decide) (by decide) (by decide)

/-- C2: For a live node `n` with a live output found under `name`, a
successful `change_node_output_type` removes every connection entry whose
value is that output — any input previously connected to it reads as
disconnected afterwards — and stores the new type on the output.  The
key-uniqueness hypothesis holds in every reachable graph (C4). -/
theorem C2_change_output_type_severs {N D V : Type} (g : Graph N D V)
    (n y : Nat) (node : Node N) (name : String) (t : D)
    (op : OutputParam D)
    (hg : g.nodes.get n = some node)
    (hno : node.get_output name = .ok y)
    (hop : g.outputs.get y = some op)
    (hnodup : (g.connections.map (fun c => c.1)).Nodup) :
    (g.change_node_output_type n name t).2 = .ok ()
      ∧ (∀ c ∈ (g.change_node_output_type n name t).1.iter_connections,
          c.2 ≠ y)
      ∧ (∀ a, g.connection a = some y →
          (g.change_node_output_type n name t).1.connection a = none)
      ∧ (g.change_node_output_type n name t).1.outputs.get y
        = some ({ op with typ := t }) := by
  have hres : g.change_node_output_type n name t
      = (g.change_output_type y t, .ok ()) := by
    simp only [Graph.change_node_output_type, hg, hno]
  have hcot : g.change_output_type y t = { g with
      outputs := g.outputs.set y ({ op with typ := t }),
      connections := g.connections.filter (fun c => c.2 != y) } := by
    simp only [Graph.change_output_type, hop]
  rw [hres, hcot]
  refine ⟨rfl, ?_, ?_, ?_⟩
  · intro c hc
    have := List.mem_filter.mp hc
    simpa using this.2
  · intro a hconn
    show ((g.connections.filter (fun c => c.2 != y)).find?
        (fun c => c.1 == a)).map (fun c => c.2) = none
    simp only [Graph.connection, Option.map_eq_some'] at hconn
    rcases hconn with ⟨c0, hc0, hc0v⟩
    have hc0k : c0.1 = a := by simpa using List.find?_some hc0
    have hc0m := List.mem_of_find?_eq_some hc0
    rw [Option.map_eq_none', List.find?_eq_none]
    intro x hx hxk
    rcases List.mem_filter.mp hx with ⟨hxm, hxv⟩
    have hxa : x.1 = a := by simpa using hxk
    have hxc0 : x = c0 := by
      refine List.inj_on_of_nodup_map hnodup hxm hc0m ?_
      simp [hxa, hc0k]
    rw [hxc0] at hxv
    rw [hc0v] at hxv
    simp at hxv
  · show (g.outputs.set y ({ op with typ := t })).get y
      = some ({ op with typ := t })
    rw [SlotMap.get_set_self, hop]
    rfl

/-- Concrete graph for the C2 witness: node `0` with output `0` named
`"out"` and inputs `0` (`"a"`) and `1` (`"b"`), both connected to output
`0`. -/
def sampleG2 : Graph Nat Nat Nat :=
  let g1 := ((Graph.new : Graph Nat Nat Nat).add_node "N" 7
    (fun g _ => g)).1
  let g2 := (g1.add_input_param 0 "a" 3 5 InputParamKind.ConnectionOrConstant
    true).1
  let g3 := (g2.add_input_param 0 "b" 3 5 InputParamKind.ConnectionOrConstant
    true).1
  let g4 := (g3.add_output_param 0 "out" 3).1
  (g4.add_connection 0 0).add_connection 0 1

/-- The node record of `sampleG2` as created by the public API. -/
def sampleNode2 : Node Nat :=
  { id := 0, label := "N", inputs := [("a", 0), ("b", 1)],
    outputs := [("out", 0)], user_data := 7 }

/-- Witness for C2 at a concrete input: on `sampleG2`, retyping output
`"out"` succeeds and both inputs `0` and `1` read as disconnected. -/
theorem C2_witness :
    (sampleG2.change_node_output_type 0 "out" 9).2 = .ok ()
      ∧ (sampleG2.change_node_output_type 0 "out" 9).1.connection 0 = none
      ∧ (sampleG2.change_node_output_type 0 "out" 9).1.connection 1 = none
      ∧ (sampleG2.change_node_output_type 0 "out" 9).1.outputs.get 0
        = some ({ id := 0, node := 0, typ := 9 }) := by
  have h := C2_change_output_type_severs sampleG2 0 0 sampleNode2 "out" 9
    ({ id := 0, node := 0, typ := 3 })
    (by decide) (by decide) (by decide) (by decide)
  exact ⟨h.1, h.2.2.1 0 (by decide), h.2.2.1 1 (by decide), h.2.2.2⟩

/-- C9 counterexample: the round-trip fails when the name is already
taken.  `sampleG`'s node `0` already has an input named `"x"` (id `0`);
adding another input named `"x"` returns the fresh id `1`, but
`get_input "x"` is a first-match lookup and still returns `0`. -/
theorem C9_counterexample :
    ∃ i, (sampleG.add_input_param 0 "x" 1 1
        InputParamKind.ConnectionOrConstant true).2 = .ok i
      ∧ ((sampleG.add_input_param 0 "x" 1 1
          InputParamKind.ConnectionOrConstant true).1.nodes.get 0).map
            (fun nd => nd.get_input "x") ≠ some (.ok i) :=
  ⟨1, by decide, by decide⟩

/-- C9 (amended): for a live node and a name not already present among
that node's inputs (resp. outputs), `add_input_param` followed by
`get_input name` on the owning node returns the id just created, and
symmetrically for `add_output_param` / `get_output`.  (With a duplicate
name the first-match lookup returns the earlier id instead — see the
counterexample.) -/
theorem C9_roundtrip_amended {N D V : Type} (g : Graph N D V) (n : Nat)
    (node : Node N) (name name2 : String) (t : D) (v : V)
    (k : InputParamKind) (si : Bool) (t2 : D)
    (hg : g.nodes.get n = some node)
    (hnin : ∀ p ∈ node.inputs, p.1 ≠ name)
    (hnout : ∀ p ∈ node.outputs, p.1 ≠ name2) :
    ((g.add_input_param n name t v k si).2 = .ok g.inputs.next
      ∧ ∃ nd, (g.add_input_param n name t v k si).1.nodes.get n = some nd
        ∧ nd.get_input name = .ok g.inputs.next)
    ∧ ((g.add_output_param n name2 t2).2 = .ok g.outputs.next
      ∧ ∃ nd, (g.add_output_param n name2 t2).1.nodes.get n = some nd
        ∧ nd.get_output name2 = .ok g.outputs.next) := by
  constructor
  · simp only [Graph.add_input_param, hg]
    refine ⟨rfl, ?_⟩
    refine ⟨{ node with inputs := node.inputs ++ [(name, g.inputs.next)] },
      ?_, ?_⟩
    · show (SlotMap.set _ n _).get n = _
      rw [SlotMap.get_set_self]
      rw [show ({ g with
          inputs := (g.inputs.insert_with_key (fun input_id =>
            { id := input_id, typ := t, value := v, kind := k, node := n,
              shown_inline := si })).1 } : Graph N D V).nodes.get n
          = some node from hg]
      rfl
    · unfold Node.get_input
      have hfind : (node.inputs ++ [(name, g.inputs.next)]).find?
          (fun p => p.1 == name) = some (name, g.inputs.next) := by
        rw [List.find?_append]
        have h1 : node.inputs.find? (fun p => p.1 == name) = none := by
          rw [List.find?_eq_none]
          intro x hx hxk
          exact hnin x hx (by simpa using hxk)
        simp [h1, List.find?_cons]
      simp only [hfind]
  · simp only [Graph.add_output_param, hg]
    refine ⟨rfl, ?_⟩
    refine ⟨{ node with outputs := node.outputs ++ [(name2, g.outputs.next)] },
      ?_, ?_⟩
    · show (SlotMap.set _ n _).get n = _
      rw [SlotMap.get_set_self]
      rw [show ({ g with
          outputs := (g.outputs.insert_with_key (fun output_id =>
            { id := output_id, node := n, typ := t2 })).1 } :
            Graph N D V).nodes.get n = some node from hg]
      rfl
    · unfold Node.get_output
      have hfind : (node.outputs ++ [(name2, g.outputs.next)]).find?
          (fun p => p.1 == name2) = some (name2, g.outputs.next) := by
        rw [List.find?_append]
        have h1 : node.outputs.find? (fun p => p.1 == name2) = none := by
          rw [List.find?_eq_none]
          intro x hx hxk
          exact hnout x hx (by simpa using hxk)
        simp [h1, List.find?_cons]
      simp only [hfind]

/-- Witness for the amended C9 at a concrete input: adding input `"y"`
(a fresh name) to `sampleG`'s node `0` returns id `1`, and `get_input
"y"` finds exactly that id; symmetrically for output `"out2"`. -/
theorem C9_witness :
    ((sampleG.add_input_param 0 "y" 1 1 InputParamKind.ConnectionOrConstant
          true).2 = .ok sampleG.inputs.next
      ∧ ∃ nd, (sampleG.add_input_param 0 "y" 1 1
          InputParamKind.ConnectionOrConstant true).1.nodes.get 0 = some nd
        ∧ nd.get_input "y" = .ok sampleG.inputs.next)
    ∧ ((sampleG.add_output_param 0 "out2" 1).2 = .ok sampleG.outputs.next
      ∧ ∃ nd, (sampleG.add_output_param 0 "out2" 1).1.nodes.get 0 = some nd
        ∧ nd.get_output "out2" = .ok sampleG.outputs.next) :=
  C9_roundtrip_amended sampleG 0 sampleNode "y" "out2" 1 1
    InputParamKind.ConnectionOrConstant true 1
    (by decide) (by decide) (by decide)

theorem SlotMap.key_not_mem_remove {α : Type} (m : SlotMap α) (k : Nat) :
    k ∉ ((m.remove k).1.entries.map (fun p => p.1)) := by
  intro hmem
  rcases List.mem_map.mp hmem with ⟨q, hq, hqk⟩
  rcases List.mem_filter.mp hq with ⟨_, hne⟩
  rw [hqk] at hne
  simp at hne

/-- C1: For a live node `n` whose listed ports resolve to live port
records owned by `n` (the structural invariant of §3) and whose graph's
connection entries all resolve (so the retain pass cannot panic),
`remove_node n` succeeds and afterwards: `iter_nodes` no longer yields
`n`, no `iter_connections` entry has a key or value among `n`'s listed
ports, and every port listed on `n` no longer resolves in its arena. -/
theorem C1_remove_node_purges {N D V : Type} (g : Graph N D V) (n : Nat)
    (node : Node N)
    (h1 : g.nodes.get n = some node)
    (h2 : ∀ p ∈ node.inputs,
      (g.inputs.get p.2).map (fun ip => ip.node) = some n)
    (h3 : ∀ p ∈ node.outputs,
      (g.outputs.get p.2).map (fun op => op.node) = some n)
    (h4 : ∀ c ∈ g.connections,
      (g.inputs.get c.1).isSome ∧ (g.outputs.get c.2).isSome) :
    (g.remove_node n).2 = .ok ()
      ∧ n ∉ (g.remove_node n).1.iter_nodes
      ∧ (∀ c ∈ (g.remove_node n).1.iter_connections,
          (∀ p ∈ node.inputs, c.1 ≠ p.2) ∧ (∀ p ∈ node.outputs, c.2 ≠ p.2))
      ∧ (∀ p ∈ node.inputs, (g.remove_node n).1.inputs.get p.2 = none)
      ∧ (∀ p ∈ node.outputs, (g.remove_node n).1.outputs.get p.2 = none)
    := by
  have h4' : ∀ c ∈ g.connections,
      (g.outputs.get c.2).isSome ∧ (g.inputs.get c.1).isSome :=
    fun c hc => ⟨(h4 c hc).2, (h4 c hc).1⟩
  have hnp : (connRetain g.inputs g.outputs n g.connections).1 = false :=
    connRetain_no_panic _ _ _ _ h4'
  have hrn : g.remove_node n
      = ({ nodes := (g.nodes.remove n).1,
           inputs := node.inputs.foldl (fun m p => (m.remove p.2).1)
             g.inputs,
           outputs := node.outputs.foldl (fun m p => (m.remove p.2).1)
             g.outputs,
           connections :=
             (connRetain g.inputs g.outputs n g.connections).2 },
         .ok ()) := by
    simp only [Graph.remove_node, hnp, Bool.false_eq_true, if_false, h1]
  rw [hrn]
  refine ⟨rfl, ?_, ?_, ?_, ?_⟩
  · exact SlotMap.key_not_mem_remove g.nodes n
  · intro c hc
    have hmem := connRetain_mem g.inputs g.outputs n g.connections h4' c hc
    rcases hmem with ⟨hcl, hout, hin⟩
    constructor
    · intro p hp hcp
      have hp2 := h2 p hp
      cases hgp : g.inputs.get p.2 with
      | none => rw [hgp] at hp2; simp at hp2
      | some ip =>
        rw [hgp] at hp2
        simp only [Option.map_some'] at hp2
        have hipn : ip.node = n := by simpa using hp2
        have : g.inputs.get c.1 = some ip := by rw [hcp, hgp]
        exact hin ip this hipn
    · intro p hp hcp
      have hp3 := h3 p hp
      cases hgp : g.outputs.get p.2 with
      | none => rw [hgp] at hp3; simp at hp3
      | some op =>
        rw [hgp] at hp3
        simp only [Option.map_some'] at hp3
        have hopn : op.node = n := by simpa using hp3
        have : g.outputs.get c.2 = some op := by rw [hcp, hgp]
        exact hout op this hopn
  · intro p hp
    show (node.inputs.foldl (fun m p => (m.remove p.2).1) g.inputs).get p.2
      = none
    rw [SlotMap.get_foldl_remove]
    rw [if_pos (List.any_eq_true.mpr ⟨p, hp, by simp⟩)]
  · intro p hp
    show (node.outputs.foldl (fun m p => (m.remove p.2).1) g.outputs).get
      p.2 = none
    rw [SlotMap.get_foldl_remove]
    rw [if_pos (List.any_eq_true.mpr ⟨p, hp, by simp⟩)]

/-- Witness for C1 at a concrete input: removing node `0` from `sampleG`
succeeds and every purge conclusion holds there. -/
theorem C1_witness :
    (sampleG.remove_node 0).2 = .ok ()
      ∧ 0 ∉ (sampleG.remove_node 0).1.iter_nodes
      ∧ (∀ c ∈ (sampleG.remove_node 0).1.iter_connections,
          (∀ p ∈ sampleNode.inputs, c.1 ≠ p.2)
            ∧ (∀ p ∈ sampleNode.outputs, c.2 ≠ p.2))
      ∧ (∀ p ∈ sampleNode.inputs,
          (sampleG.remove_node 0).1.inputs.get p.2 = none)
      ∧ (∀ p ∈ sampleNode.outputs,
          (sampleG.remove_node 0).1.outputs.get p.2 = none) :=
  C1_remove_node_purges sampleG 0 sampleNode (by decide) (by decide)
    (by decide) (by decide)

/-! ### The §3 invariants, for C5 -/

/-- The §3 invariants of the spec, together with the structural contract
of the arenas (live keys are below the fresh-key counter — the model's
rendering of "generational keys are never reused"):
1. every port listed on a node resolves to a live port owned by that node
   (`inv1nIn`/`inv1nOut`), and every live port's owner is live and lists
   it (`inv1pIn`/`inv1pOut`);
2. every connection entry's key and value resolve to live ports (`inv2`);
3. no port id is listed by two different nodes — ports are owned by
   exactly one node (`inv3in`/`inv3out`). -/
structure WF {N D V : Type} (g : Graph N D V) : Prop where
  nodeBound : ∀ q ∈ g.nodes.entries, q.1 < g.nodes.next
  inBound : ∀ q ∈ g.inputs.entries, q.1 < g.inputs.next
  outBound : ∀ q ∈ g.outputs.entries, q.1 < g.outputs.next
  inv1nIn : ∀ q ∈ g.nodes.entries, ∀ p ∈ q.2.inputs,
    (g.inputs.get p.2).map (fun ip => ip.node) = some q.1
  inv1nOut : ∀ q ∈ g.nodes.entries, ∀ p ∈ q.2.outputs,
    (g.outputs.get p.2).map (fun op => op.node) = some q.1
  inv1pIn : ∀ q ∈ g.inputs.entries,
    (g.nodes.get q.2.node).map
      (fun nd => nd.inputs.any (fun p => p.2 == q.1)) = some true
  inv1pOut : ∀ q ∈ g.outputs.entries,
    (g.nodes.get q.2.node).map
      (fun nd => nd.outputs.any (fun p => p.2 == q.1)) = some true
  inv2 : ∀ c ∈ g.connections,
    (g.inputs.get c.1).isSome ∧ (g.outputs.get c.2).isSome
  inv3in : ∀ q1 ∈ g.nodes.entries, ∀ q2 ∈ g.nodes.entries,
    ∀ p1 ∈ q1.2.inputs, ∀ p2 ∈ q2.2.inputs, p1.2 = p2.2 → q1 = q2
  inv3out : ∀ q1 ∈ g.nodes.entries, ∀ q2 ∈ g.nodes.entries,
    ∀ p1 ∈ q1.2.outputs, ∀ p2 ∈ q2.2.outputs, p1.2 = p2.2 → q1 = q2

theorem SlotMap.get_bound {α : Type} (m : SlotMap α) (k : Nat) (v : α)
    (hb : ∀ q ∈ m.entries, q.1 < m.next) (h : m.get k = some v) :
    k < m.next :=
  hb _ (SlotMap.get_mem _ _ _ h)

theorem SlotMap.get_insert_preserved {α : Type} (m : SlotMap α)
    (f : Nat → α) (k : Nat) (v : α)
    (hb : ∀ q ∈ m.entries, q.1 < m.next) (h : m.get k = some v) :
    ((m.insert_with_key f).1).get k = some v := by
  rw [SlotMap.get_insert_ne m f k
    (Nat.ne_of_lt (SlotMap.get_bound m k v hb h))]
  exact h

/-- The empty node record `add_node` inserts before running the caller's
closure. -/
def freshNode {N : Type} (k : Nat) (label : String) (ud : N) : Node N :=
  { id := k, label := label, inputs := [], outputs := [],
    user_data := ud }

theorem WF_add_node {N D V : Type} (g : Graph N D V) (label : String)
    (ud : N) (f : Graph N D V → Nat → Graph N D V)
    (hf : ∀ g' id, WF g' → WF (f g' id))
    (hg : WF g) : WF (g.add_node label ud f).1 := by
  apply hf
  have hmem : ∀ q : Nat × Node N,
      q ∈ (g.nodes.insert_with_key (fun node_id =>
        freshNode node_id label ud)).1.entries →
      q ∈ g.nodes.entries
        ∨ q = (g.nodes.next, freshNode g.nodes.next label ud) := by
    intro q hq
    rcases List.mem_append.mp hq with hq | hq
    · exact Or.inl hq
    · exact Or.inr (List.mem_singleton.mp hq)
  constructor
  · intro q hq
    show q.1 < g.nodes.next + 1
    rcases hmem q hq with hq | hq
    · exact Nat.lt_succ_of_lt (hg.nodeBound q hq)
    · rw [hq]
      exact Nat.lt_succ_self _
  · exact hg.inBound
  · exact hg.outBound
  · intro q hq p hp
    rcases hmem q hq with hq | hq
    · exact hg.inv1nIn q hq p hp
    · rw [hq] at hp
      simp [freshNode] at hp
  · intro q hq p hp
    rcases hmem q hq with hq | hq
    · exact hg.inv1nOut q hq p hp
    · rw [hq] at hp
      simp [freshNode] at hp
  · intro q hq
    have h0 := hg.inv1pIn q hq
    cases hget : g.nodes.get q.2.node with
    | none => rw [hget] at h0; simp at h0
    | some nd =>
      rw [SlotMap.get_insert_ne _ _ _
        (Nat.ne_of_lt (SlotMap.get_bound _ _ _ hg.nodeBound hget))]
      rw [hget] at h0 ⊢
      exact h0
  · intro q hq
    have h0 := hg.inv1pOut q hq
    cases hget : g.nodes.get q.2.node with
    | none => rw [hget] at h0; simp at h0
    | some nd =>
      rw [SlotMap.get_insert_ne _ _ _
        (Nat.ne_of_lt (SlotMap.get_bound _ _ _ hg.nodeBound hget))]
      rw [hget] at h0 ⊢
      exact h0
  · exact hg.inv2
  · intro q1 hq1 q2 hq2 p1 hp1 p2 hp2 hpe
    rcases hmem q1 hq1 with hq1 | hq1
    · rcases hmem q2 hq2 with hq2 | hq2
      · exact hg.inv3in q1 hq1 q2 hq2 p1 hp1 p2 hp2 hpe
      · rw [hq2] at hp2
        simp [freshNode] at hp2
    · rw [hq1] at hp1
      simp [freshNode] at hp1
  · intro q1 hq1 q2 hq2 p1 hp1 p2 hp2 hpe
    rcases hmem q1 hq1 with hq1 | hq1
    · rcases hmem q2 hq2 with hq2 | hq2
      · exact hg.inv3out q1 hq1 q2 hq2 p1 hp1 p2 hp2 hpe
      · rw [hq2] at hp2
        simp [freshNode] at hp2
    · rw [hq1] at hp1
      simp [freshNode] at hp1

theorem SlotMap.mem_set_cases {α : Type} (m : SlotMap α) (k : Nat) (v : α)
    (q : Nat × α) (hq : q ∈ (m.set k v).entries) :
    (q ∈ m.entries ∧ q.1 ≠ k) ∨ q = (k, v) := by
  rcases List.mem_map.mp hq with ⟨q0, hq0, hq0e⟩
  by_cases hk : q0.1 = k
  · right
    rw [← hq0e, if_pos (by simp [hk])]
  · left
    rw [← hq0e, if_neg (by simp [hk])]
    exact ⟨hq0, hk⟩

theorem SlotMap.get_set_of_get {α : Type} (m : SlotMap α) (k : Nat)
    (v v0 : α) (h : m.get k = some v0) : (m.set k v).get k = some v := by
  rw [SlotMap.get_set_self, h]
  rfl

theorem WF_extend_input {N D V : Type} (g : Graph N D V) (n : Nat)
    (node : Node N) (name : String) (fk : Nat → InputParam D V)
    (hknode : (fk g.inputs.next).node = n)
    (h1 : g.nodes.get n = some node) (hg : WF g) :
    WF { g with
          inputs := (g.inputs.insert_with_key fk).1,
          nodes := g.nodes.set n
            ({ node with
                inputs := node.inputs ++ [(name, g.inputs.next)] }) } := by
  have hnmem : (n, node) ∈ g.nodes.entries := SlotMap.get_mem _ _ _ h1
  have hlisted_lt : ∀ q ∈ g.nodes.entries, ∀ p ∈ q.2.inputs,
      p.2 < g.inputs.next := by
    intro q hq p hp
    have h0 := hg.inv1nIn q hq p hp
    cases hgp : g.inputs.get p.2 with
    | none => rw [hgp] at h0; simp at h0
    | some ip => exact SlotMap.get_bound _ _ _ hg.inBound hgp
  have hget_new : ∀ (j : Nat) (ip : InputParam D V), g.inputs.get j
      = some ip → ((g.inputs.insert_with_key fk).1).get j = some ip :=
    fun j ip h => SlotMap.get_insert_preserved _ _ _ _ hg.inBound h
  have hget_iN : ((g.inputs.insert_with_key fk).1).get g.inputs.next
      = some (fk g.inputs.next) :=
    SlotMap.get_insert_self _ _ hg.inBound
  have hin_mem : ∀ q : Nat × InputParam D V,
      q ∈ ((g.inputs.insert_with_key fk).1).entries →
      q ∈ g.inputs.entries ∨ q = (g.inputs.next, fk g.inputs.next) := by
    intro q hq
    rcases List.mem_append.mp hq with hq | hq
    · exact Or.inl hq
    · exact Or.inr (List.mem_singleton.mp hq)
  constructor
  · intro q hq
    rcases SlotMap.mem_set_cases _ _ _ q hq with ⟨hq0, _⟩ | hq0
    · exact hg.nodeBound q hq0
    · rw [hq0]
      show n < g.nodes.next
      exact SlotMap.get_bound g.nodes n node hg.nodeBound h1
  · intro q hq
    show q.1 < g.inputs.next + 1
    rcases hin_mem q hq with hq | hq
    · exact Nat.lt_succ_of_lt (hg.inBound q hq)
    · rw [hq]
      exact Nat.lt_succ_self _
  · exact hg.outBound
  · intro q hq p hp
    rcases SlotMap.mem_set_cases _ _ _ q hq with ⟨hq0, _⟩ | hq0
    · have h0 := hg.inv1nIn q hq0 p hp
      cases hgp : g.inputs.get p.2 with
      | none => rw [hgp] at h0; simp at h0
      | some ip =>
        rw [hget_new p.2 ip hgp]
        rw [hgp] at h0
        exact h0
    · rw [hq0] at hp ⊢
      rcases List.mem_append.mp hp with hp | hp
      · have h0 := hg.inv1nIn _ hnmem p hp
        cases hgp : g.inputs.get p.2 with
        | none => rw [hgp] at h0; simp at h0
        | some ip =>
          rw [hget_new p.2 ip hgp]
          rw [hgp] at h0
          exact h0
      · have hpe := List.mem_singleton.mp hp
        rw [hpe]
        show (((g.inputs.insert_with_key fk).1).get g.inputs.next).map
          (fun ip => ip.node) = some n
        rw [hget_iN]
        simp [hknode]
  · intro q hq p hp
    rcases SlotMap.mem_set_cases _ _ _ q hq with ⟨hq0, _⟩ | hq0
    · exact hg.inv1nOut q hq0 p hp
    · rw [hq0] at hp ⊢
      exact hg.inv1nOut _ hnmem p hp
  · intro q hq
    rcases hin_mem q hq with hq | hq
    · have h0 := hg.inv1pIn q hq
      cases hgo : g.nodes.get q.2.node with
      | none => rw [hgo] at h0; simp at h0
      | some nd =>
        rw [hgo] at h0
        simp only [Option.map_some'] at h0
        by_cases hqn : q.2.node = n
        · rw [hqn]
          rw [hqn] at hgo
          have hnd : nd = node := by
            rw [hgo] at h1
            exact (Option.some.injEq _ _).mp h1.symm ▸ rfl
          show ((g.nodes.set n _).get n).map _ = some true
          rw [SlotMap.get_set_of_get _ _ _ _ h1]
          simp only [Option.map_some']
          rw [← hnd] at hnmem ⊢
          have hany : nd.inputs.any (fun p => p.2 == q.1) = true := by
            simpa using h0
          simp [List.any_append, hany]
        · show ((g.nodes.set n _).get q.2.node).map _ = some true
          rw [SlotMap.get_set_ne _ _ _ _ hqn, hgo]
          simp only [Option.map_some']
          exact h0
    · rw [hq]
      show ((g.nodes.set n _).get (fk g.inputs.next).node).map _ = some true
      rw [hknode, SlotMap.get_set_of_get _ _ _ _ h1]
      simp [List.any_append]
  · intro q hq
    have h0 := hg.inv1pOut q hq
    cases hgo : g.nodes.get q.2.node with
    | none => rw [hgo] at h0; simp at h0
    | some nd =>
      rw [hgo] at h0
      simp only [Option.map_some'] at h0
      by_cases hqn : q.2.node = n
      · rw [hqn]
        rw [hqn] at hgo
        have hnd : nd = node := by
          rw [hgo] at h1
          exact (Option.some.injEq _ _).mp h1.symm ▸ rfl
        show ((g.nodes.set n _).get n).map _ = some true
        rw [SlotMap.get_set_of_get _ _ _ _ h1]
        simp only [Option.map_some']
        rw [hnd] at h0
        exact h0
      · show ((g.nodes.set n _).get q.2.node).map _ = some true
        rw [SlotMap.get_set_ne _ _ _ _ hqn, hgo]
        simp only [Option.map_some']
        exact h0
  · intro c hc
    refine ⟨?_, (hg.inv2 c hc).2⟩
    have h0 := (hg.inv2 c hc).1
    cases hgc : g.inputs.get c.1 with
    | none => rw [hgc] at h0; simp at h0
    | some ip =>
      rw [hget_new c.1 ip hgc]
      rfl
  · intro q1 hq1 q2 hq2 p1 hp1 p2 hp2 hpe
    rcases SlotMap.mem_set_cases _ _ _ q1 hq1 with ⟨hq01, hk1⟩ | hq01 <;>
      rcases SlotMap.mem_set_cases _ _ _ q2 hq2 with ⟨hq02, hk2⟩ | hq02
    · exact hg.inv3in q1 hq01 q2 hq02 p1 hp1 p2 hp2 hpe
    · rw [hq02] at hp2
      rcases List.mem_append.mp hp2 with hp2 | hp2
      · have := hg.inv3in q1 hq01 _ hnmem p1 hp1 p2 hp2 hpe
        exact absurd (congrArg Prod.fst this) hk1
      · have hp2e := List.mem_singleton.mp hp2
        have hlt := hlisted_lt q1 hq01 p1 hp1
        rw [hpe, hp2e] at hlt
        exact absurd hlt (by simp)
    · rw [hq01] at hp1
      rcases List.mem_append.mp hp1 with hp1 | hp1
      · have := hg.inv3in _ hnmem q2 hq02 p1 hp1 p2 hp2 hpe
        exact absurd (congrArg Prod.fst this).symm hk2
      · have hp1e := List.mem_singleton.mp hp1
        have hlt := hlisted_lt q2 hq02 p2 hp2
        rw [← hpe, hp1e] at hlt
        exact absurd hlt (by simp)
    · rw [hq01, hq02]
  · intro q1 hq1 q2 hq2 p1 hp1 p2 hp2 hpe
    rcases SlotMap.mem_set_cases _ _ _ q1 hq1 with ⟨hq01, hk1⟩ | hq01 <;>
      rcases SlotMap.mem_set_cases _ _ _ q2 hq2 with ⟨hq02, hk2⟩ | hq02
    · exact hg.inv3out q1 hq01 q2 hq02 p1 hp1 p2 hp2 hpe
    · rw [hq02] at hp2
      have := hg.inv3out q1 hq01 _ hnmem p1 hp1 p2 hp2 hpe
      exact absurd (congrArg Prod.fst this) hk1
    · rw [hq01] at hp1
      have := hg.inv3out _ hnmem q2 hq02 p1 hp1 p2 hp2 hpe
      exact absurd (congrArg Prod.fst this).symm hk2
    · rw [hq01, hq02]

theorem WF_extend_output {N D V : Type} (g : Graph N D V) (n : Nat)
    (node : Node N) (name : String) (fk : Nat → OutputParam D)
    (hknode : (fk g.outputs.next).node = n)
    (h1 : g.nodes.get n = some node) (hg : WF g) :
    WF { g with
          outputs := (g.outputs.insert_with_key fk).1,
          nodes := g.nodes.set n
            ({ node with
                outputs := node.outputs ++ [(name, g.outputs.next)] }) } := by
  have hnmem : (n, node) ∈ g.nodes.entries := SlotMap.get_mem _ _ _ h1
  have hlisted_lt : ∀ q ∈ g.nodes.entries, ∀ p ∈ q.2.outputs,
      p.2 < g.outputs.next := by
    intro q hq p hp
    have h0 := hg.inv1nOut q hq p hp
    cases hgp : g.outputs.get p.2 with
    | none => rw [hgp] at h0; simp at h0
    | some op => exact SlotMap.get_bound _ _ _ hg.outBound hgp
  have hget_new : ∀ (j : Nat) (op : OutputParam D), g.outputs.get j
      = some op → ((g.outputs.insert_with_key fk).1).get j = some op :=
    fun j op h => SlotMap.get_insert_preserved _ _ _ _ hg.outBound h
  have hget_oN : ((g.outputs.insert_with_key fk).1).get g.outputs.next
      = some (fk g.outputs.next) :=
    SlotMap.get_insert_self _ _ hg.outBound
  have hout_mem : ∀ q : Nat × OutputParam D,
      q ∈ ((g.outputs.insert_with_key fk).1).entries →
      q ∈ g.outputs.entries ∨ q = (g.outputs.next, fk g.outputs.next) := by
    intro q hq
    rcases List.mem_append.mp hq with hq | hq
    · exact Or.inl hq
    · exact Or.inr (List.mem_singleton.mp hq)
  constructor
  · intro q hq
    rcases SlotMap.mem_set_cases _ _ _ q hq with ⟨hq0, _⟩ | hq0
    · exact hg.nodeBound q hq0
    · rw [hq0]
      show n < g.nodes.next
      exact SlotMap.get_bound g.nodes n node hg.nodeBound h1
  · exact hg.inBound
  · intro q hq
    show q.1 < g.outputs.next + 1
    rcases hout_mem q hq with hq | hq
    · exact Nat.lt_succ_of_lt (hg.outBound q hq)
    · rw [hq]
      exact Nat.lt_succ_self _
  · intro q hq p hp
    rcases SlotMap.mem_set_cases _ _ _ q hq with ⟨hq0, _⟩ | hq0
    · exact hg.inv1nIn q hq0 p hp
    · rw [hq0] at hp ⊢
      exact hg.inv1nIn _ hnmem p hp
  · intro q hq p hp
    rcases SlotMap.mem_set_cases _ _ _ q hq with ⟨hq0, _⟩ | hq0
    · have h0 := hg.inv1nOut q hq0 p hp
      cases hgp : g.outputs.get p.2 with
      | none => rw [hgp] at h0; simp at h0
      | some op =>
        rw [hget_new p.2 op hgp]
        rw [hgp] at h0
        exact h0
    · rw [hq0] at hp ⊢
      rcases List.mem_append.mp hp with hp | hp
      · have h0 := hg.inv1nOut _ hnmem p hp
        cases hgp : g.outputs.get p.2 with
        | none => rw [hgp] at h0; simp at h0
        | some op =>
          rw [hget_new p.2 op hgp]
          rw [hgp] at h0
          exact h0
      · have hpe := List.mem_singleton.mp hp
        rw [hpe]
        show (((g.outputs.insert_with_key fk).1).get g.outputs.next).map
          (fun op => op.node) = some n
        rw [hget_oN]
        simp [hknode]
  · intro q hq
    have h0 := hg.inv1pIn q hq
    cases hgo : g.nodes.get q.2.node with
    | none => rw [hgo] at h0; simp at h0
    | some nd =>
      rw [hgo] at h0
      simp only [Option.map_some'] at h0
      by_cases hqn : q.2.node = n
      · rw [hqn]
        rw [hqn] at hgo
        have hnd : nd = node := by
          rw [hgo] at h1
          exact Option.some.inj h1
        show ((g.nodes.set n _).get n).map _ = some true
        rw [SlotMap.get_set_of_get _ _ _ _ h1]
        simp only [Option.map_some']
        rw [hnd] at h0
        exact h0
      · show ((g.nodes.set n _).get q.2.node).map _ = some true
        rw [SlotMap.get_set_ne _ _ _ _ hqn, hgo]
        simp only [Option.map_some']
        exact h0
  · intro q hq
    rcases hout_mem q hq with hq | hq
    · have h0 := hg.inv1pOut q hq
      cases hgo : g.nodes.get q.2.node with
      | none => rw [hgo] at h0; simp at h0
      | some nd =>
        rw [hgo] at h0
        simp only [Option.map_some'] at h0
        by_cases hqn : q.2.node = n
        · rw [hqn]
          rw [hqn] at hgo
          have hnd : nd = node := by
            rw [hgo] at h1
            exact Option.some.inj h1
          show ((g.nodes.set n _).get n).map _ = some true
          rw [SlotMap.get_set_of_get _ _ _ _ h1]
          simp only [Option.map_some']
          rw [hnd] at h0
          have hany : node.outputs.any (fun p => p.2 == q.1) = true := by
            simpa using h0
          simp [List.any_append, hany]
        · show ((g.nodes.set n _).get q.2.node).map _ = some true
          rw [SlotMap.get_set_ne _ _ _ _ hqn, hgo]
          simp only [Option.map_some']
          exact h0
    · rw [hq]
      show ((g.nodes.set n _).get (fk g.outputs.next).node).map _ = some true
      rw [hknode, SlotMap.get_set_of_get _ _ _ _ h1]
      simp [List.any_append]
  · intro c hc
    refine ⟨(hg.inv2 c hc).1, ?_⟩
    have h0 := (hg.inv2 c hc).2
    cases hgc : g.outputs.get c.2 with
    | none => rw [hgc] at h0; simp at h0
    | some op =>
      rw [hget_new c.2 op hgc]
      rfl
  · intro q1 hq1 q2 hq2 p1 hp1 p2 hp2 hpe
    rcases SlotMap.mem_set_cases _ _ _ q1 hq1 with ⟨hq01, hk1⟩ | hq01 <;>
      rcases SlotMap.mem_set_cases _ _ _ q2 hq2 with ⟨hq02, hk2⟩ | hq02
    · exact hg.inv3in q1 hq01 q2 hq02 p1 hp1 p2 hp2 hpe
    · rw [hq02] at hp2
      have := hg.inv3in q1 hq01 _ hnmem p1 hp1 p2 hp2 hpe
      exact absurd (congrArg Prod.fst this) hk1
    · rw [hq01] at hp1
      have := hg.inv3in _ hnmem q2 hq02 p1 hp1 p2 hp2 hpe
      exact absurd (congrArg Prod.fst this).symm hk2
    · rw [hq01, hq02]
  · intro q1 hq1 q2 hq2 p1 hp1 p2 hp2 hpe
    rcases SlotMap.mem_set_cases _ _ _ q1 hq1 with ⟨hq01, hk1⟩ | hq01 <;>
      rcases SlotMap.mem_set_cases _ _ _ q2 hq2 with ⟨hq02, hk2⟩ | hq02
    · exact hg.inv3out q1 hq01 q2 hq02 p1 hp1 p2 hp2 hpe
    · rw [hq02] at hp2
      rcases List.mem_append.mp hp2 with hp2 | hp2
      · have := hg.inv3out q1 hq01 _ hnmem p1 hp1 p2 hp2 hpe
        exact absurd (congrArg Prod.fst this) hk1
      · have hp2e := List.mem_singleton.mp hp2
        have hlt := hlisted_lt q1 hq01 p1 hp1
        rw [hpe, hp2e] at hlt
        exact absurd hlt (by simp)
    · rw [hq01] at hp1
      rcases List.mem_append.mp hp1 with hp1 | hp1
      · have := hg.inv3out _ hnmem q2 hq02 p1 hp1 p2 hp2 hpe
        exact absurd (congrArg Prod.fst this).symm hk2
      · have hp1e := List.mem_singleton.mp hp1
        have hlt := hlisted_lt q2 hq02 p2 hp2
        rw [← hpe, hp1e] at hlt
        exact absurd hlt (by simp)
    · rw [hq01, hq02]

theorem SlotMap.next_foldl_remove {α : Type} (l : List (String × Nat))
    (m : SlotMap α) :
    (l.foldl (fun m p => (m.remove p.2).1) m).next = m.next := by
  induction l generalizing m with
  | nil => rfl
  | cons a t ih => rw [List.foldl_cons, ih]; rfl

theorem remove_node_eq {N D V : Type} (g : Graph N D V) (n : Nat)
    (node : Node N) (h1 : g.nodes.get n = some node)
    (h4 : ∀ c ∈ g.connections,
      (g.outputs.get c.2).isSome ∧ (g.inputs.get c.1).isSome) :
    g.remove_node n
      = (⟨(g.nodes.remove n).1,
          node.inputs.foldl (fun m p => (m.remove p.2).1) g.inputs,
          node.outputs.foldl (fun m p => (m.remove p.2).1) g.outputs,
          (connRetain g.inputs g.outputs n g.connections).2⟩, .ok ()) := by
  have hnp := connRetain_no_panic g.inputs g.outputs n g.connections h4
  simp only [Graph.remove_node, hnp, Bool.false_eq_true, if_false, h1]

theorem remove_node_ok_WF {N D V : Type} (g : Graph N D V) (n : Nat)
    (node : Node N) (h1 : g.nodes.get n = some node) (hg : WF g) :
    (g.remove_node n).2 = .ok () ∧ WF (g.remove_node n).1 := by
  have h4 : ∀ c ∈ g.connections,
      (g.outputs.get c.2).isSome ∧ (g.inputs.get c.1).isSome :=
    fun c hc => ⟨(hg.inv2 c hc).2, (hg.inv2 c hc).1⟩
  have hnmem : (n, node) ∈ g.nodes.entries := SlotMap.get_mem _ _ _ h1
  rw [remove_node_eq g n node h1 h4]
  have hnotlistedIn : ∀ (k : Nat), (∀ p' ∈ node.inputs, k ≠ p'.2) →
      (node.inputs.any (fun pp => pp.2 == k)) = false := by
    intro k hk
    rcases hany : node.inputs.any (fun pp => pp.2 == k) with _ | _
    · rfl
    · rcases List.any_eq_true.mp hany with ⟨p', hp', hpk⟩
      exact absurd (by simpa using hpk : p'.2 = k).symm (hk p' hp')
  have hnotlistedOut : ∀ (k : Nat), (∀ p' ∈ node.outputs, k ≠ p'.2) →
      (node.outputs.any (fun pp => pp.2 == k)) = false := by
    intro k hk
    rcases hany : node.outputs.any (fun pp => pp.2 == k) with _ | _
    · rfl
    · rcases List.any_eq_true.mp hany with ⟨p', hp', hpk⟩
      exact absurd (by simpa using hpk : p'.2 = k).symm (hk p' hp')
  have hnodes_mem : ∀ q : Nat × Node N, q ∈ ((g.nodes.remove n).1).entries →
      q ∈ g.nodes.entries ∧ q.1 ≠ n := by
    intro q hq
    rcases List.mem_filter.mp hq with ⟨hm, hne⟩
    exact ⟨hm, by simpa using hne⟩
  refine ⟨rfl, ?_⟩
  constructor
  · intro q hq
    exact hg.nodeBound q (hnodes_mem q hq).1
  · intro q hq
    show q.1 < (node.inputs.foldl (fun m p => (m.remove p.2).1)
      g.inputs).next
    rw [SlotMap.next_foldl_remove]
    exact hg.inBound q ((SlotMap.mem_foldl_remove _ _ _).mp hq).1
  · intro q hq
    show q.1 < (node.outputs.foldl (fun m p => (m.remove p.2).1)
      g.outputs).next
    rw [SlotMap.next_foldl_remove]
    exact hg.outBound q ((SlotMap.mem_foldl_remove _ _ _).mp hq).1
  · intro q hq p hp
    rcases hnodes_mem q hq with ⟨hqm, hqn⟩
    have h0 := hg.inv1nIn q hqm p hp
    have hnot : ∀ p' ∈ node.inputs, p.2 ≠ p'.2 := by
      intro p' hp' he
      have := hg.inv3in q hqm _ hnmem p hp p' hp' he
      exact hqn (congrArg Prod.fst this)
    show ((node.inputs.foldl (fun m p => (m.remove p.2).1) g.inputs).get
      p.2).map (fun ip => ip.node) = some q.1
    rw [SlotMap.get_foldl_remove,
      if_neg (by simp [hnotlistedIn p.2 hnot])]
    exact h0
  · intro q hq p hp
    rcases hnodes_mem q hq with ⟨hqm, hqn⟩
    have h0 := hg.inv1nOut q hqm p hp
    have hnot : ∀ p' ∈ node.outputs, p.2 ≠ p'.2 := by
      intro p' hp' he
      have := hg.inv3out q hqm _ hnmem p hp p' hp' he
      exact hqn (congrArg Prod.fst this)
    show ((node.outputs.foldl (fun m p => (m.remove p.2).1) g.outputs).get
      p.2).map (fun op => op.node) = some q.1
    rw [SlotMap.get_foldl_remove,
      if_neg (by simp [hnotlistedOut p.2 hnot])]
    exact h0
  · intro q hq
    rcases (SlotMap.mem_foldl_remove _ _ _).mp hq with ⟨hqm, hqnl⟩
    have h0 := hg.inv1pIn q hqm
    cases hgo : g.nodes.get q.2.node with
    | none => rw [hgo] at h0; simp at h0
    | some nd =>
      rw [hgo] at h0
      simp only [Option.map_some'] at h0
      have hqn : q.2.node ≠ n := by
        intro he
        rw [he, h1] at hgo
        have hnd : nd = node := (Option.some.inj hgo).symm
        have hany : nd.inputs.any (fun p => p.2 == q.1) = true :=
          Option.some.inj h0
        rcases List.any_eq_true.mp hany with ⟨p', hp', hpk⟩
        rw [hnd] at hp'
        have hpq : p'.2 = q.1 := by simpa using hpk
        exact hqnl p' hp' hpq.symm
      show (((g.nodes.remove n).1).get q.2.node).map _ = some true
      rw [SlotMap.get_remove_ne _ _ _ hqn, hgo]
      simp only [Option.map_some']
      exact h0
  · intro q hq
    rcases (SlotMap.mem_foldl_remove _ _ _).mp hq with ⟨hqm, hqnl⟩
    have h0 := hg.inv1pOut q hqm
    cases hgo : g.nodes.get q.2.node with
    | none => rw [hgo] at h0; simp at h0
    | some nd =>
      rw [hgo] at h0
      simp only [Option.map_some'] at h0
      have hqn : q.2.node ≠ n := by
        intro he
        rw [he, h1] at hgo
        have hnd : nd = node := (Option.some.inj hgo).symm
        have hany : nd.outputs.any (fun p => p.2 == q.1) = true :=
          Option.some.inj h0
        rcases List.any_eq_true.mp hany with ⟨p', hp', hpk⟩
        rw [hnd] at hp'
        have hpq : p'.2 = q.1 := by simpa using hpk
        exact hqnl p' hp' hpq.symm
      show (((g.nodes.remove n).1).get q.2.node).map _ = some true
      rw [SlotMap.get_remove_ne _ _ _ hqn, hgo]
      simp only [Option.map_some']
      exact h0
  · intro c hc
    rcases connRetain_mem g.inputs g.outputs n g.connections h4 c hc
      with ⟨hcl, hout, hin⟩
    have h2 := hg.inv2 c hcl
    constructor
    · cases hgc : g.inputs.get c.1 with
      | none =>
        rw [hgc] at h2
        simp at h2
      | some ip =>
        have hnot : ∀ p' ∈ node.inputs, c.1 ≠ p'.2 := by
          intro p' hp' he
          have h0 := hg.inv1nIn _ hnmem p' hp'
          rw [← he, hgc] at h0
          simp only [Option.map_some'] at h0
          exact hin ip hgc (by simpa using h0)
        show ((node.inputs.foldl (fun m p => (m.remove p.2).1)
          g.inputs).get c.1).isSome = true
        rw [SlotMap.get_foldl_remove,
          if_neg (by simp [hnotlistedIn c.1 hnot]), hgc]
        rfl
    · cases hgc : g.outputs.get c.2 with
      | none =>
        rw [hgc] at h2
        simp at h2
      | some op =>
        have hnot : ∀ p' ∈ node.outputs, c.2 ≠ p'.2 := by
          intro p' hp' he
          have h0 := hg.inv1nOut _ hnmem p' hp'
          rw [← he, hgc] at h0
          simp only [Option.map_some'] at h0
          exact hout op hgc (by simpa using h0)
        show ((node.outputs.foldl (fun m p => (m.remove p.2).1)
          g.outputs).get c.2).isSome = true
        rw [SlotMap.get_foldl_remove,
          if_neg (by simp [hnotlistedOut c.2 hnot]), hgc]
        rfl
  · intro q1 hq1 q2 hq2 p1 hp1 p2 hp2 hpe
    exact hg.inv3in q1 (hnodes_mem q1 hq1).1 q2 (hnodes_mem q2 hq2).1
      p1 hp1 p2 hp2 hpe
  · intro q1 hq1 q2 hq2 p1 hp1 p2 hp2 hpe
    exact hg.inv3out q1 (hnodes_mem q1 hq1).1 q2 (hnodes_mem q2 hq2).1
      p1 hp1 p2 hp2 hpe

theorem WF_conn_filter {N D V : Type} (g : Graph N D V)
    (f : Nat × Nat → Bool) (hg : WF g) :
    WF { g with connections := g.connections.filter f } := by
  constructor
  · exact hg.nodeBound
  · exact hg.inBound
  · exact hg.outBound
  · exact hg.inv1nIn
  · exact hg.inv1nOut
  · exact hg.inv1pIn
  · exact hg.inv1pOut
  · intro c hc
    exact hg.inv2 c (List.mem_filter.mp hc).1
  · exact hg.inv3in
  · exact hg.inv3out

theorem WF_remove_connection {N D V : Type} (g : Graph N D V) (i : Nat)
    (hg : WF g) : WF (g.remove_connection i).1 :=
  WF_conn_filter g _ hg

theorem WF_add_connection {N D V : Type} (g : Graph N D V) (o i : Nat)
    (hg : WF g) (hin : (g.inputs.get i).isSome)
    (hout : (g.outputs.get o).isSome) : WF (g.add_connection o i) := by
  constructor
  · exact hg.nodeBound
  · exact hg.inBound
  · exact hg.outBound
  · exact hg.inv1nIn
  · exact hg.inv1nOut
  · exact hg.inv1pIn
  · exact hg.inv1pOut
  · intro c hc
    rcases mem_connInsert g.connections i o c hc with hc | hc
    · exact hg.inv2 c hc
    · rw [hc]
      exact ⟨hin, hout⟩
  · exact hg.inv3in
  · exact hg.inv3out

theorem WF_change_input_type {N D V : Type} (g : Graph N D V) (i : Nat)
    (t : D) (v : V) (hg : WF g) : WF (g.change_input_type i t v) := by
  unfold Graph.change_input_type
  cases hgi : g.inputs.get i with
  | none => exact hg
  | some input =>
    have himem : (i, input) ∈ g.inputs.entries := SlotMap.get_mem _ _ _ hgi
    constructor
    · exact hg.nodeBound
    · intro q hq
      rcases SlotMap.mem_set_cases _ _ _ q hq with ⟨hq0, _⟩ | hq0
      · exact hg.inBound q hq0
      · rw [hq0]
        show i < g.inputs.next
        exact SlotMap.get_bound _ _ _ hg.inBound hgi
    · exact hg.outBound
    · intro q hq p hp
      have h0 := hg.inv1nIn q hq p hp
      by_cases hpe : p.2 = i
      · rw [hpe] at h0 ⊢
        rw [hgi] at h0
        simp only [Option.map_some'] at h0
        show ((g.inputs.set i (input.change_type t v)).get i).map
          (fun ip => ip.node) = some q.1
        rw [SlotMap.get_set_of_get _ _ _ _ hgi]
        simp only [Option.map_some']
        exact h0
      · show ((g.inputs.set i (input.change_type t v)).get p.2).map
          (fun ip => ip.node) = some q.1
        rw [SlotMap.get_set_ne _ _ _ _ hpe]
        exact h0
    · exact hg.inv1nOut
    · intro q hq
      rcases SlotMap.mem_set_cases _ _ _ q hq with ⟨hq0, _⟩ | hq0
      · exact hg.inv1pIn q hq0
      · rw [hq0]
        exact hg.inv1pIn (i, input) himem
    · exact hg.inv1pOut
    · intro c hc
      rcases List.mem_filter.mp hc with ⟨hcm, hcne⟩
      have h2 := hg.inv2 c hcm
      have hci : c.1 ≠ i := by simpa using hcne
      constructor
      · show ((g.inputs.set i (input.change_type t v)).get c.1).isSome
          = true
        rw [SlotMap.get_set_ne _ _ _ _ hci]
        exact h2.1
      · exact h2.2
    · exact hg.inv3in
    · exact hg.inv3out

theorem WF_change_output_type {N D V : Type} (g : Graph N D V) (o : Nat)
    (t : D) (hg : WF g) : WF (g.change_output_type o t) := by
  unfold Graph.change_output_type
  cases hgo : g.outputs.get o with
  | none => exact hg
  | some output =>
    have homem : (o, output) ∈ g.outputs.entries := SlotMap.get_mem _ _ _ hgo
    constructor
    · exact hg.nodeBound
    · exact hg.inBound
    · intro q hq
      rcases SlotMap.mem_set_cases _ _ _ q hq with ⟨hq0, _⟩ | hq0
      · exact hg.outBound q hq0
      · rw [hq0]
        show o < g.outputs.next
        exact SlotMap.get_bound _ _ _ hg.outBound hgo
    · exact hg.inv1nIn
    · intro q hq p hp
      have h0 := hg.inv1nOut q hq p hp
      by_cases hpe : p.2 = o
      · rw [hpe] at h0 ⊢
        rw [hgo] at h0
        simp only [Option.map_some'] at h0
        show ((g.outputs.set o _).get o).map (fun op => op.node) = some q.1
        rw [SlotMap.get_set_of_get _ _ _ _ hgo]
        simp only [Option.map_some']
        exact h0
      · show ((g.outputs.set o _).get p.2).map (fun op => op.node) = some q.1
        rw [SlotMap.get_set_ne _ _ _ _ hpe]
        exact h0
    · exact hg.inv1pIn
    · intro q hq
      rcases SlotMap.mem_set_cases _ _ _ q hq with ⟨hq0, _⟩ | hq0
      · exact hg.inv1pOut q hq0
      · rw [hq0]
        exact hg.inv1pOut (o, output) homem
    · intro c hc
      rcases List.mem_filter.mp hc with ⟨hcm, hcne⟩
      have h2 := hg.inv2 c hcm
      have hco : c.2 ≠ o := by simpa using hcne
      refine ⟨h2.1, ?_⟩
      show ((g.outputs.set o _).get c.2).isSome = true
      rw [SlotMap.get_set_ne _ _ _ _ hco]
      exact h2.2
    · exact hg.inv3in
    · exact hg.inv3out

theorem WF_change_node_input_type {N D V : Type} (g : Graph N D V)
    (n : Nat) (name : String) (t : D) (v : V) (hg : WF g) :
    WF (g.change_node_input_type n name t v).1 := by
  cases hg1 : g.nodes.get n with
  | none =>
    rw [show (g.change_node_input_type n name t v).1 = g from by
      simp only [Graph.change_node_input_type, hg1]]
    exact hg
  | some node =>
    cases hni : node.get_input name with
    | error e =>
      rw [show (g.change_node_input_type n name t v).1 = g from by
        simp only [Graph.change_node_input_type, hg1, hni]]
      exact hg
    | ok i =>
      rw [show (g.change_node_input_type n name t v).1
          = g.change_input_type i t v from by
        simp only [Graph.change_node_input_type, hg1, hni]]
      exact WF_change_input_type g i t v hg

theorem WF_change_node_output_type {N D V : Type} (g : Graph N D V)
    (n : Nat) (name : String) (t : D) (hg : WF g) :
    WF (g.change_node_output_type n name t).1 := by
  cases hg1 : g.nodes.get n with
  | none =>
    rw [show (g.change_node_output_type n name t).1 = g from by
      simp only [Graph.change_node_output_type, hg1]]
    exact hg
  | some node =>
    cases hno : node.get_output name with
    | error e =>
      rw [show (g.change_node_output_type n name t).1 = g from by
        simp only [Graph.change_node_output_type, hg1, hno]]
      exact hg
    | ok o =>
      rw [show (g.change_node_output_type n name t).1
          = g.change_output_type o t from by
        simp only [Graph.change_node_output_type, hg1, hno]]
      exact WF_change_output_type g o t hg

theorem change_node_input_type_error_unchanged {N D V : Type}
    (g : Graph N D V) (n : Nat) (name : String) (t : D) (v : V)
    (e : EguiGraphError)
    (h : (g.change_node_input_type n name t v).2 = .error e) :
    (g.change_node_input_type n name t v).1 = g := by
  cases hg1 : g.nodes.get n with
  | none => simp only [Graph.change_node_input_type, hg1]
  | some node =>
    cases hni : node.get_input name with
    | error e2 => simp only [Graph.change_node_input_type, hg1, hni]
    | ok i =>
      have : (g.change_node_input_type n name t v).2 = .ok () := by
        simp only [Graph.change_node_input_type, hg1, hni]
      rw [this] at h
      exact absurd h (by simp)

theorem change_node_output_type_error_unchanged {N D V : Type}
    (g : Graph N D V) (n : Nat) (name : String) (t : D)
    (e : EguiGraphError)
    (h : (g.change_node_output_type n name t).2 = .error e) :
    (g.change_node_output_type n name t).1 = g := by
  cases hg1 : g.nodes.get n with
  | none => simp only [Graph.change_node_output_type, hg1]
  | some node =>
    cases hno : node.get_output name with
    | error e2 => simp only [Graph.change_node_output_type, hg1, hno]
    | ok o =>
      have : (g.change_node_output_type n name t).2 = .ok () := by
        simp only [Graph.change_node_output_type, hg1, hno]
      rw [this] at h
      exact absurd h (by simp)

theorem add_input_param_ok_WF {N D V : Type} (g : Graph N D V) (n : Nat)
    (node : Node N) (name : String) (t : D) (v : V) (k : InputParamKind)
    (si : Bool) (h1 : g.nodes.get n = some node) (hg : WF g) :
    (g.add_input_param n name t v k si).2 = .ok g.inputs.next
      ∧ WF (g.add_input_param n name t v k si).1 := by
  constructor
  · simp only [Graph.add_input_param, h1]
    rfl
  · simp only [Graph.add_input_param, h1]
    exact WF_extend_input g n node name _ rfl h1 hg

theorem add_output_param_ok_WF {N D V : Type} (g : Graph N D V) (n : Nat)
    (node : Node N) (name : String) (t : D)
    (h1 : g.nodes.get n = some node) (hg : WF g) :
    (g.add_output_param n name t).2 = .ok g.outputs.next
      ∧ WF (g.add_output_param n name t).1 := by
  constructor
  · simp only [Graph.add_output_param, h1]
    rfl
  · simp only [Graph.add_output_param, h1]
    exact WF_extend_output g n node name _ rfl h1 hg

theorem add_input_param_dead_node {N D V : Type} (g : Graph N D V)
    (n : Nat) (name : String) (t : D) (v : V) (k : InputParamKind)
    (si : Bool) (h : g.nodes.get n = none) :
    (g.add_input_param n name t v k si).2 = .error Panic.panic
      ∧ (g.add_input_param n name t v k si).1
        = { g with inputs := (g.inputs.insert_with_key (fun input_id =>
            { id := input_id, typ := t, value := v, kind := k, node := n,
              shown_inline := si })).1 } := by
  constructor <;> simp only [Graph.add_input_param, h]

theorem add_output_param_dead_node {N D V : Type} (g : Graph N D V)
    (n : Nat) (name : String) (t : D) (h : g.nodes.get n = none) :
    (g.add_output_param n name t).2 = .error Panic.panic
      ∧ (g.add_output_param n name t).1
        = { g with outputs := (g.outputs.insert_with_key (fun output_id =>
            { id := output_id, node := n, typ := t })).1 } := by
  constructor <;> simp only [Graph.add_output_param, h]

theorem remove_node_dead_unchanged {N D V : Type} (g : Graph N D V)
    (n : Nat) (hg : WF g) (h : g.nodes.get n = none) :
    (g.remove_node n).1 = g
      ∧ (g.remove_node n).2 = .error Panic.panic := by
  have hkeep : connRetain g.inputs g.outputs n g.connections
      = (false, g.connections) := by
    apply connRetain_keep_all
    intro c hc
    have h2 := hg.inv2 c hc
    constructor
    · cases hgc : g.outputs.get c.2 with
      | none =>
        rw [hgc] at h2
        simp at h2
      | some op =>
        refine ⟨op, rfl, ?_⟩
        intro he
        have h0 := hg.inv1pOut (c.2, op) (SlotMap.get_mem _ _ _ hgc)
        show False
        rw [show (c.2, op).2.node = n from he, h] at h0
        simp at h0
    · cases hgc : g.inputs.get c.1 with
      | none =>
        rw [hgc] at h2
        simp at h2
      | some ip =>
        refine ⟨ip, rfl, ?_⟩
        intro he
        have h0 := hg.inv1pIn (c.1, ip) (SlotMap.get_mem _ _ _ hgc)
        show False
        rw [show (c.1, ip).2.node = n from he, h] at h0
        simp at h0
  constructor <;>
    simp only [Graph.remove_node, hkeep, Bool.false_eq_true, if_false, h]

/-- C5 counterexample: `add_input_param` on a node id that does not
resolve (here the empty graph) fails its node lookup only AFTER inserting
the new port into the input arena, so at the failure the graph state is
already mutated — the claim's "state unchanged on error" is false. -/
theorem C5_counterexample :
    ((Graph.new : Graph Unit Unit Unit).add_input_param 0 "x" () ()
      InputParamKind.ConnectionOnly true).2 = .error Panic.panic
    ∧ ((Graph.new : Graph Unit Unit Unit).add_input_param 0 "x" () ()
      InputParamKind.ConnectionOnly true).1 ≠ Graph.new
    ∧ ((Graph.new : Graph Unit Unit Unit).add_input_param 0 "x" () ()
      InputParamKind.ConnectionOnly true).1.inputs.entries.length = 1 :=
  ⟨by decide, by decide, by decide⟩

/-- C5 (amended): atomicity of the mutation operations with respect to the
§3 invariants (`WF`), with the two deviations the code forces.  On
success each operation re-establishes the invariants: `add_node` (when its
init closure preserves them), `add_input_param`/`add_output_param` on a
live node, `remove_node` on a live node, `remove_connection` always,
`add_connection` when both of its argument ports are live (C10 shows it
validates nothing itself), and the two type-change operations always.  On
a lookup failure, `remove_node` (on a well-formed graph) and the two
type-change operations return with the state unchanged; but
`add_input_param` and `add_output_param` insert the new port into its
arena before the failing node lookup, so they fail with the port arena
already holding an orphan port and everything else unchanged. -/
theorem C5_atomicity_amended {N D V : Type} :
    (∀ (g : Graph N D V) (label : String) (ud : N)
        (f : Graph N D V → Nat → Graph N D V),
      (∀ g' id, WF g' → WF (f g' id)) → WF g →
        WF (g.add_node label ud f).1)
    ∧ (∀ (g : Graph N D V) (n : Nat) (node : Node N) (name : String)
        (t : D) (v : V) (k : InputParamKind) (si : Bool),
      g.nodes.get n = some node → WF g →
        (g.add_input_param n name t v k si).2 = .ok g.inputs.next
          ∧ WF (g.add_input_param n name t v k si).1)
    ∧ (∀ (g : Graph N D V) (n : Nat) (node : Node N) (name : String)
        (t : D),
      g.nodes.get n = some node → WF g →
        (g.add_output_param n name t).2 = .ok g.outputs.next
          ∧ WF (g.add_output_param n name t).1)
    ∧ (∀ (g : Graph N D V) (n : Nat) (node : Node N),
      g.nodes.get n = some node → WF g →
        (g.remove_node n).2 = .ok () ∧ WF (g.remove_node n).1)
    ∧ (∀ (g : Graph N D V) (i : Nat), WF g →
        WF (g.remove_connection i).1)
    ∧ (∀ (g : Graph N D V) (o i : Nat), WF g →
        (g.inputs.get i).isSome → (g.outputs.get o).isSome →
          WF (g.add_connection o i))
    ∧ (∀ (g : Graph N D V) (n : Nat) (name : String) (t : D) (v : V),
      WF g → WF (g.change_node_input_type n name t v).1)
    ∧ (∀ (g : Graph N D V) (n : Nat) (name : String) (t : D) (v : V)
        (e : EguiGraphError),
      (g.change_node_input_type n name t v).2 = .error e →
        (g.change_node_input_type n name t v).1 = g)
    ∧ (∀ (g : Graph N D V) (n : Nat) (name : String) (t : D),
      WF g → WF (g.change_node_output_type n name t).1)
    ∧ (∀ (g : Graph N D V) (n : Nat) (name : String) (t : D)
        (e : EguiGraphError),
      (g.change_node_output_type n name t).2 = .error e →
        (g.change_node_output_type n name t).1 = g)
    ∧ (∀ (g : Graph N D V) (n : Nat), WF g → g.nodes.get n = none →
        (g.remove_node n).1 = g
          ∧ (g.remove_node n).2 = .error Panic.panic)
    ∧ (∀ (g : Graph N D V) (n : Nat) (name : String) (t : D) (v : V)
        (k : InputParamKind) (si : Bool),
      g.nodes.get n = none →
        (g.add_input_param n name t v k si).2 = .error Panic.panic
          ∧ (g.add_input_param n name t v k si).1
            = { g with inputs := (g.inputs.insert_with_key (fun input_id =>
                { id := input_id, typ := t, value := v, kind := k,
                  node := n, shown_inline := si })).1 })
    ∧ (∀ (g : Graph N D V) (n : Nat) (name : String) (t : D),
      g.nodes.get n = none →
        (g.add_output_param n name t).2 = .error Panic.panic
          ∧ (g.add_output_param n name t).1
            = { g with outputs := (g.outputs.insert_with_key
                (fun output_id =>
                  { id := output_id, node := n, typ := t })).1 }) :=
  ⟨fun g label ud f hf hg => WF_add_node g label ud f hf hg,
   fun g n node name t v k si h1 hg =>
     add_input_param_ok_WF g n node name t v k si h1 hg,
   fun g n node name t h1 hg => add_output_param_ok_WF g n node name t h1 hg,
   fun g n node h1 hg =>
     let r := remove_node_ok_WF g n node h1 hg
     ⟨r.1, r.2⟩,
   fun g i hg => WF_remove_connection g i hg,
   fun g o i hg hin hout => WF_add_connection g o i hg hin hout,
   fun g n name t v hg => WF_change_node_input_type g n name t v hg,
   fun g n name t v e he =>
     change_node_input_type_error_unchanged g n name t v e he,
   fun g n name t hg => WF_change_node_output_type g n name t hg,
   fun g n name t e he =>
     change_node_output_type_error_unchanged g n name t e he,
   fun g n hg hn => remove_node_dead_unchanged g n hg hn,
   fun g n name t v k si hn => add_input_param_dead_node g n name t v k si hn,
   fun g n name t hn => add_output_param_dead_node g n name t hn⟩

/-- Witness for the amended C5 at a concrete input: `sampleG` satisfies
the §3 invariants, and removing its (live) node `0` succeeds and
re-establishes them. -/
theorem C5_witness :
    (sampleG.remove_node 0).2 = .ok () ∧ WF (sampleG.remove_node 0).1 :=
  (@C5_atomicity_amended Nat Nat Nat).2.2.2.1 sampleG 0 sampleNode
    (by decide)
    ⟨by decide, by decide, by decide, by decide, by decide, by decide,
     by decide, by decide, by decide, by decide⟩
